import Mathlib

set_option linter.unusedVariables false

namespace Sockguard

/-! Shallow embedding of buildkite/sockguard's request director
(src/director.go) and of the hijacking stream proxy's request rewrite.
Strings coming from HTTP paths are processed as character lists, matching
the byte-wise regular-expression work the Go code performs. -/

/-- JSON values as decoded by encoding/json into interface{} values: objects
become maps (modelled as association lists carrying the document/iteration
order), arrays become slices, numbers float64 (modelled as Int; numeric
precision is irrelevant to every claim), plus strings, booleans and null. -/
inductive Json where
  | null : Json
  | bool (b : Bool) : Json
  | num (n : Int) : Json
  | str (s : String) : Json
  | arr (xs : List Json) : Json
  | obj (kvs : List (String × Json)) : Json
deriving Repr

/-- Go type of a decoded JSON object: map from member name to value. -/
abbrev JObj := List (String × Json)

/-- Go map read m[k]: the association lists modelling maps have distinct keys,
so the first binding decides. -/
def lookupKV {α : Type} (m : List (String × α)) (k : String) : Option α :=
  match m with
  | [] => none
  | (k', v) :: rest => if k' = k then some v else lookupKV rest k

/-- Go map write m[k] = v: overwrite the existing binding or add a new one. -/
def setKV {α : Type} (m : List (String × α)) (k : String) (v : α) : List (String × α) :=
  match m with
  | [] => [(k, v)]
  | (k', v') :: rest => if k' = k then (k, v) :: rest else (k', v') :: setKV rest k v

/-- Configuration fields of rulesDirector (src/director.go lines 28-39),
minus the HTTP client, which is abstracted by oracles below. -/
structure Config where
  Owner : String
  AllowBinds : List String := []
  AllowHostModeNetworking : Bool := false
  ContainerCgroupParent : String := ""
  ContainerDockerLink : String := ""
  ContainerJoinNetwork : String := ""
  ContainerJoinNetworkAlias : String := ""
  User : String := ""
deriving Repr, DecidableEq

/-- Label key constant ownerKey from src/director.go line 21. -/
def ownerKey : String := "com.buildkite.sockguard.owner"

/-- Compiled API version constant from src/director.go line 20. -/
def apiVersion : String := "1.32"

/-- RE2 word character, as matched by a backslash-w atom (ASCII only). -/
def isWordChar (c : Char) : Bool :=
  ('a' ≤ c && c ≤ 'z') || ('A' ≤ c && c ≤ 'Z') || ('0' ≤ c && c ≤ '9') || c = '_'

/-- Literal-prefix test used to decide the anchored pattern pieces. -/
def hasPref : List Char → List Char → Bool
  | [], _ => true
  | _ :: _, [] => false
  | p :: ps, c :: cs => p = c && hasPref ps cs

/-- Drop a literal prefix, returning the remainder when the prefix matches. -/
def dropPref : List Char → List Char → Option (List Char)
  | [], cs => some cs
  | _ :: _, [] => none
  | p :: ps, c :: cs => if p = c then dropPref ps cs else none

/-- RE2 dot: any character except newline. This predicate says a run of
characters can all be consumed by dot atoms. -/
def allNoNL (cs : List Char) : Bool := cs.all (fun c => c != '\n')

/-- Model of versionRegex (src/director.go line 25), anchored /v digit dot
digits followed by a word boundary, and of replacing that prefix by the empty
string. The boundary after the digit run holds iff the character following the
maximal run is absent or not a word character; otherwise the regex cannot
match at all and the path is returned unchanged. -/
def stripVersionL (cs : List Char) : List Char :=
  match cs with
  | '/' :: 'v' :: d :: '.' :: rest =>
    if d.isDigit then
      match rest.takeWhile Char.isDigit, rest.dropWhile Char.isDigit with
      | [], _ => cs
      | _ :: _, tail =>
        match tail with
        | [] => []
        | t :: _ => if isWordChar t then cs else tail
    else cs
  | _ => cs

/-- Matcher for the pattern anchored slash (containers|exec) slash word-plus
with trailing word boundary: with the greedy word-run and the boundary, this
matches exactly when the literal prefix is followed by a word character. -/
def matchContainersExec (cs : List Char) : Bool :=
  match dropPref ("/containers/".data) cs with
  | some (c :: _) => isWordChar c
  | _ =>
    match dropPref ("/exec/".data) cs with
    | some (c :: _) => isWordChar c
    | _ => false

/-- Matcher for the anchored images slash word-plus word-boundary pattern. -/
def matchImagesWord (cs : List Char) : Bool :=
  match dropPref ("/images/".data) cs with
  | some (c :: _) => isWordChar c
  | _ => false

/-- Matcher for the anchored networks slash dot-plus end pattern. -/
def matchNetworksAny (cs : List Char) : Bool :=
  match dropPref ("/networks/".data) cs with
  | some rest => (!rest.isEmpty) && allNoNL rest
  | none => false

/-- Suffix test used for the end-anchored alternations. -/
def endsWithL (sfx cs : List Char) : Bool := hasPref sfx.reverse cs.reverse

/-- Matcher for the anchored networks slash dot-plus slash
(connect|disconnect) end pattern: the end anchor pins the literal suffix, so
the pattern matches iff the remainder ends in the suffix and the nonempty
middle part is newline free. -/
def matchNetConnDis (cs : List Char) : Bool :=
  match dropPref ("/networks/".data) cs with
  | some rest =>
    (endsWithL ("/connect".data) rest &&
      (let mid := rest.take (rest.length - 8); (!mid.isEmpty) && allNoNL mid)) ||
    (endsWithL ("/disconnect".data) rest &&
      (let mid := rest.take (rest.length - 11); (!mid.isEmpty) && allNoNL mid))
  | none => false

/-- Matcher for the anchored volumes slash word-plus end pattern. -/
def matchVolumesId (cs : List Char) : Bool :=
  match dropPref ("/volumes/".data) cs with
  | some rest => (!rest.isEmpty) && rest.all isWordChar
  | none => false

/-- Optional trailing segment: the optional group slash word-plus followed by
the end anchor, as used by the identifier patterns. -/
def optWordSeg : List Char → Bool
  | [] => true
  | '/' :: w => (!w.isEmpty) && w.all isWordChar
  | _ => false

/-- Lazy capture for prefix dot-plus-lazy optional-word-segment end: the
shortest nonempty newline-free prefix whose complement is empty or one extra
word segment. -/
def lazyDotCapture : List Char → Option (List Char)
  | [] => none
  | c :: rest =>
    if c = '\n' then none
    else if optWordSeg rest then some [c]
    else
      match lazyDotCapture rest with
      | some cap => some (c :: cap)
      | none => none

/-- Lazy capture for word-plus-lazy optional-word-segment end, used by the
volume identifier pattern. -/
def lazyWordCapture : List Char → Option (List Char)
  | [] => none
  | c :: rest =>
    if !isWordChar c then none
    else if optWordSeg rest then some [c]
    else
      match lazyWordCapture rest with
      | some cap => some (c :: cap)
      | none => none

/-- End alternative of the image identifier pattern: /json, /history, /push
or /tag at the end of the path. -/
def imagesOpSuffix (cs : List Char) : Bool :=
  cs == "/json".data || cs == "/history".data || cs == "/push".data || cs == "/tag".data

/-- Lazy capture for the image identifier pattern images slash dot-plus-lazy
slash (json|history|push|tag) end. -/
def lazyDotCaptureOp : List Char → Option (List Char)
  | [] => none
  | c :: rest =>
    if c = '\n' then none
    else if imagesOpSuffix rest then some [c]
    else
      match lazyDotCaptureOp rest with
      | some cap => some (c :: cap)
      | none => none

/-- Capture for the anchored images slash (word-plus slash non-slash-plus)
end pattern: the single slash of the capture must terminate the maximal word
run, and the trailing part may not contain another slash. -/
def imagesSlashCapture (rest : List Char) : Option (List Char) :=
  let w := rest.takeWhile isWordChar
  let t := rest.dropWhile isWordChar
  match t with
  | '/' :: x =>
    if (!w.isEmpty) && (!x.isEmpty) && x.all (fun c => c != '/') then some rest else none
  | _ => none

/-- identifierPatterns (src/director.go lines 169-176) tried in order on the
version-stripped path; the first match supplies the identifier. -/
def findIdentifier (cs : List Char) : Option (List Char) :=
  match (match dropPref ("/containers/".data) cs with
         | some rest => lazyDotCapture rest
         | none => none) with
  | some r => some r
  | none =>
  match (match dropPref ("/networks/".data) cs with
         | some rest => lazyDotCapture rest
         | none => none) with
  | some r => some r
  | none =>
  match (match dropPref ("/volumes/".data) cs with
         | some rest => lazyWordCapture rest
         | none => none) with
  | some r => some r
  | none =>
  match (match dropPref ("/images/".data) cs with
         | some rest => lazyDotCaptureOp rest
         | none => none) with
  | some r => some r
  | none =>
  match (match dropPref ("/images/".data) cs with
         | some rest =>
           if (!rest.isEmpty) && rest.all (fun c => c != '/') then some rest else none
         | none => none) with
  | some r => some r
  | none =>
  match dropPref ("/images/".data) cs with
  | some rest => imagesSlashCapture rest
  | none => none

/-- Result of inspectLabels (src/director.go lines 639-684: HTTP GET on the
inspect endpoint plus JSON decode of the label slot): the labels on a 200, the
errInspectNotFound sentinel on a 404, and any other failure with its message.
The upstream engine is abstracted as an oracle from (kind, identifier) to this
outcome. -/
inductive InspectOutcome where
  | found (labels : List (String × String))
  | notFound
  | failed (msg : String)
deriving Repr, DecidableEq

/-- Upstream inspect oracle: behaviour of the engine for label inspects. -/
abbrev InspectOracle := String → String → InspectOutcome

/-- Result of checkOwner, mirroring its (bool, error) pair: allow = (true,
nil), deny = (false, nil), errNotFound = (false, errInspectNotFound),
errFailed = (false, some other error). -/
inductive CheckResult where
  | allow
  | deny
  | errNotFound
  | errFailed (msg : String)
deriving Repr, DecidableEq

/-- Conversion of a character-list path back to a string for messages. -/
def strOf (cs : List Char) : String := String.mk cs

/-- checkOwner from src/director.go lines 180-218. -/
def checkOwner (r : Config) (oracle : InspectOracle) (kind : String)
    (allowEmpty : Bool) (reqPath : String) : CheckResult :=
  let path := stripVersionL reqPath.data
  match findIdentifier path with
  | none => .errFailed ("Unable to find an identifier in " ++ strOf path)
  | some ident =>
    match oracle kind (strOf ident) with
    | .found labels =>
      match lookupKV labels ownerKey with
      | some v => if v = r.Owner then .allow else .deny
      | none => if allowEmpty then .allow else .deny
    | .notFound => .errNotFound
    | .failed msg => .errFailed msg

/-- Handler selected by a Direct call: either the upstream handler, a
writeError-backed error handler, or one of the named rewriting handlers whose
behaviour is embedded separately below. -/
inductive Handler where
  | upstream
  | errorH (msg : String) (code : Nat)
  | containerCreate
  | build
  | networkCreate
  | networkDelete
  | queryFilters
  | labelsBody
deriving Repr, DecidableEq

/-- Dispatch on a checkOwner result shared by the container, image and
volume rows of Direct: allow and not-found forward, other errors map to 500,
a denial to 401 with the row's message. -/
def ownerGate (res : CheckResult) (denyMsg : String) : Handler :=
  match res with
  | .allow => .upstream
  | .errNotFound => .upstream
  | .errFailed msg => .errorH msg 500
  | .deny => .errorH denyMsg 401

/-- The networks GET/connect/disconnect branch (src/director.go lines
127-144): the body is read (a read error yields 500) and the upstream handler
returned unconditionally; the checkOwner block below the return is
unreachable. -/
def networkPeek (bodyReadErr : Option String) : Handler :=
  match bodyReadErr with
  | some e => .errorH e 500
  | none => .upstream

/-- Direct from src/director.go lines 49-167: the ordered first-match-wins
route table. The body read performed inline by the networks GET/connect/
disconnect branch is represented by bodyReadErr (the ReadAll error, if any);
that branch returns the upstream handler unconditionally afterwards, its
checkOwner block being unreachable after the return. -/
def Direct (r : Config) (oracle : InspectOracle) (method : String) (reqPath : String)
    (bodyReadErr : Option String) : Handler :=
  if method == "GET" && ((stripVersionL reqPath.data) == "/_ping".data || (stripVersionL reqPath.data) == "/version".data || (stripVersionL reqPath.data) == "/info".data) then
    .upstream
  else if method == "GET" && (stripVersionL reqPath.data) == "/events".data then .queryFilters
  else if method == "POST" && (stripVersionL reqPath.data) == "/containers/create".data then .containerCreate
  else if method == "POST" && (stripVersionL reqPath.data) == "/containers/prune".data then .queryFilters
  else if method == "GET" && (stripVersionL reqPath.data) == "/containers/json".data then .queryFilters
  else if matchContainersExec (stripVersionL reqPath.data) then
    ownerGate (checkOwner r oracle "containers" false reqPath) "Unauthorized access to container"
  else if method == "POST" && (stripVersionL reqPath.data) == "/build".data then .build
  else if method == "GET" && (stripVersionL reqPath.data) == "/images/json".data then .queryFilters
  else if method == "POST" && (stripVersionL reqPath.data) == "/images/create".data then .upstream
  else if method == "POST" && ((stripVersionL reqPath.data) == "/images/create".data || (stripVersionL reqPath.data) == "/images/search".data
      || (stripVersionL reqPath.data) == "/images/get".data || (stripVersionL reqPath.data) == "/images/load".data) then
    .errorH (method ++ " " ++ reqPath ++ " not implemented yet") 501
  else if method == "POST" && (stripVersionL reqPath.data) == "/images/prune".data then .queryFilters
  else if matchImagesWord (stripVersionL reqPath.data) then
    ownerGate (checkOwner r oracle "images" true reqPath) "Unauthorized access to image"
  else if method == "GET" && (stripVersionL reqPath.data) == "/networks".data then .queryFilters
  else if method == "POST" && (stripVersionL reqPath.data) == "/networks/create".data then .networkCreate
  else if method == "POST" && (stripVersionL reqPath.data) == "/networks/prune".data then .queryFilters
  else if method == "DELETE" && matchNetworksAny (stripVersionL reqPath.data) then .networkDelete
  else if (method == "GET" && matchNetworksAny (stripVersionL reqPath.data)) || (method == "POST" && matchNetConnDis (stripVersionL reqPath.data)) then
    networkPeek bodyReadErr
  else if method == "GET" && (stripVersionL reqPath.data) == "/volumes".data then .queryFilters
  else if method == "POST" && (stripVersionL reqPath.data) == "/volumes/create".data then .labelsBody
  else if method == "POST" && (stripVersionL reqPath.data) == "/volumes/prune".data then .queryFilters
  else if (method == "GET" || method == "DELETE") && matchVolumesId (stripVersionL reqPath.data) then
    ownerGate (checkOwner r oracle "volumes" true reqPath) "Unauthorized access to volume"
  else .errorH (method ++ " " ++ reqPath ++ " not implemented yet") 501

/-- Response generated by the proxy itself (never forwarded from upstream):
writeErr is the director's writeError (JSON message document), httpErr is Go
http.Error (plain text). -/
inductive Gen where
  | writeErr (msg : String) (code : Nat)
  | httpErr (msg : String) (code : Nat)
deriving Repr, DecidableEq

/-- Outcome of running a rewriting handler: a generated rejection without
forwarding, a Go runtime panic, a forward to upstream carrying the rewritten
payload, or (network create only) a forward followed by one further generated
response. -/
inductive HResult (α : Type) where
  | reject (g : Gen)
  | panics
  | fwd (a : α)
  | fwdThen (a : α) (g : Gen)
deriving Repr

/-- Application of addLabel(label, value, decoded[k]) from src/director.go
lines 515-522 to the containing object: the Go call mutates the inner map in
place, so the k entry of the outer object is updated exactly when that entry
currently holds a JSON object; any other value (nil included) is logged and
left untouched, and no map is created. -/
def addLabelAt (decoded : JObj) (k label value : String) : JObj :=
  match lookupKV decoded k with
  | some (.obj t) => setKV decoded k (.obj (setKV t label (.str value)))
  | _ => decoded

/-- Split on a character (strings.Split specialised to one-character
separators): the chunks between occurrences of the separator; never empty. -/
def splitOnChar (sep : Char) (cs : List Char) : List (List Char) :=
  match cs with
  | [] => [[]]
  | c :: rest =>
    let r := splitOnChar sep rest
    if c = sep then [] :: r
    else
      match r with
      | h :: t => (c :: h) :: t
      | [] => [[c]]

/-- Element processing of Go path.Clean for rooted paths: empty and dot
elements vanish, dotdot pops the previously kept element, and an unmatched
dotdot at the root vanishes. The bind sources below are always rooted (a
slash is prepended before cleaning), so only rooted behaviour is embedded. -/
def cleanRootedElems (acc : List (List Char)) : List (List Char) → List (List Char)
  | [] => acc.reverse
  | e :: es =>
    if e = [] || e = ['.'] then cleanRootedElems acc es
    else if e = ['.', '.'] then
      match acc with
      | [] => cleanRootedElems [] es
      | _ :: t => cleanRootedElems t es
    else cleanRootedElems (e :: acc) es

/-- Joining path elements with slashes. -/
def joinSlash : List (List Char) → List Char
  | [] => []
  | [e] => e
  | e :: es => e ++ '/' :: joinSlash es

/-- Go path.Clean applied to a slash-prepended source, as in the expression
path.Clean of slash plus chunks zero in src/director.go line 335
(filepath.FromSlash is the identity on Linux, the Dockerfile's platform). -/
def goPathClean (src : List Char) : List Char :=
  '/' :: joinSlash (cleanRootedElems [] (splitOnChar '/' src))

/-- isBindAllowed from src/director.go lines 325-347. -/
def isBindAllowed (bind : String) (allowed : List String) : Bool :=
  match splitOnChar ':' bind.data with
  | chunk0 :: _ =>
    if chunk0.any (fun c => c == '.' || c == '\\' || c == '/') then
      allowed.any (fun p => hasPref p.data (goPathClean chunk0))
    else true
  | [] => true

/-- Spec-side bind rule, stated from the claim's words: the source portion is
the text before the first colon; it is a host path iff it contains at least
one of dot, slash, backslash; a source with none of these is a named volume
and always permitted; a host path is permitted iff prepending a slash and
lexically cleaning yields a path starting with a configured allow prefix. -/
def bindAllowedSpec (allowed : List String) (bind : String) : Bool :=
  let src := bind.data.takeWhile (fun c => c != ':')
  if src.any (fun c => c == '.' || c == '/' || c == '\\') then
    allowed.any (fun p => hasPref p.data (goPathClean src))
  else true

mutual
/-- Rendering fmt.Sprint performs on a decoded JSON interface value, used
when re-building Links entries; strings print themselves; no theorem depends
on the rendering of composite values. -/
def fmtSprint : Json → String
  | .null => "<nil>"
  | .bool b => if b then "true" else "false"
  | .num n => toString n
  | .str s => s
  | .arr xs => "[" ++ fmtSprintSpaced xs ++ "]"
  | .obj kvs => "map[" ++ fmtSprintPairs kvs ++ "]"

/-- Space-separated rendering of a slice. -/
def fmtSprintSpaced : List Json → String
  | [] => ""
  | [x] => fmtSprint x
  | x :: xs => fmtSprint x ++ " " ++ fmtSprintSpaced xs

/-- Rendering of map entries. -/
def fmtSprintPairs : List (String × Json) → String
  | [] => ""
  | [(k, v)] => k ++ ":" ++ fmtSprint v
  | (k, v) :: kvs => k ++ ":" ++ fmtSprint v ++ " " ++ fmtSprintPairs kvs
end

/-- Verdict of the sequential bind scan. -/
inductive BindScan where
  | allOk
  | rejected
  | panicked
deriving Repr, DecidableEq

/-- Sequential bind filtering from src/director.go lines 242-252: each entry
is cast to string (a non-string entry panics the handler) and checked; the
first disallowed bind rejects the create with 401. -/
def checkBinds (allowed : List String) : List Json → BindScan
  | [] => .allOk
  | .str s :: rest =>
    if !isBindAllowed s allowed then .rejected
    else checkBinds allowed rest
  | _ :: _ => .panicked

/-- Final marshalling step of handleContainerCreate (src/director.go lines
305-321): the decoded object re-gains the possibly-mutated HostConfig map,
the User member is forced when configured, and the re-encoded body is
forwarded upstream (json.Marshal of a decoded map cannot fail). -/
def ccFinish (r : Config) (decoded : JObj) (hcFinal : JObj) : HResult JObj :=
  let d1 := setKV decoded "HostConfig" (.obj hcFinal)
  let d2 := if r.User ≠ "" then setKV d1 "User" (.str r.User) else d1
  .fwd d2

/-- Decoded Privileged flag (src/director.go line 235): a failed cast leaves
the two-valued assertion's zero value false. -/
def privilegedOf (hc : JObj) : Bool :=
  match lookupKV hc "Privileged" with
  | some (.bool b) => b
  | _ => false

/-- Bind scan over the decoded Binds member (src/director.go lines 243-252):
a failed cast of the whole member skips the scan. -/
def bindsScanOf (r : Config) (hc : JObj) : BindScan :=
  match lookupKV hc "Binds" with
  | some (.arr xs) => checkBinds r.AllowBinds xs
  | _ => .allOk

/-- Host-network test (src/director.go lines 255-256). -/
def networkHostOf (hc : JObj) : Bool :=
  match lookupKV hc "NetworkMode" with
  | some (.str m) => m == "host"
  | _ => false

/-- HostConfig after the configured CgroupParent is applied (src/director.go
lines 274-278; the client value is the empty string at this point). -/
def hc1Of (r : Config) (hc : JObj) : JObj :=
  if r.ContainerCgroupParent ≠ "" then setKV hc "CgroupParent" (.str r.ContainerCgroupParent)
  else hc

/-- Continuation of handleContainerCreate once HostConfig has been asserted
to be a JSON object (src/director.go lines 234-322). -/
def handleContainerCreateHC (r : Config) (decoded : JObj) (hc : JObj) : HResult JObj :=
  if privilegedOf hc then
    .reject (.writeErr "Containers aren't allowed to run as privileged" 401)
  else
    match bindsScanOf r hc with
    | .rejected => .reject (.writeErr "Host binds aren't allowed" 401)
    | .panicked => .panics
    | .allOk =>
      if networkHostOf hc && !r.AllowHostModeNetworking then
        .reject (.writeErr "Containers aren't allowed to use host networking" 401)
      else
        match lookupKV hc "CgroupParent" with
        | some (.str cp) =>
          if cp ≠ "" then
            .reject (.writeErr ("Containers aren't allowed to set their own CgroupParent (received '" ++ cp ++ "')") 401)
          else
            if r.ContainerDockerLink ≠ "" then
              match lookupKV (hc1Of r hc) "Links" with
              | none => .reject (.writeErr "Denied container create: unable to parse Links <nil>" 400)
              | some .null =>
                ccFinish r decoded (setKV (hc1Of r hc) "Links" (.arr ([r.ContainerDockerLink].map .str)))
              | some (.arr xs) =>
                ccFinish r decoded (setKV (hc1Of r hc) "Links" (.arr ((xs.map fmtSprint ++ [r.ContainerDockerLink]).map .str)))
              | some _ => .panics
            else ccFinish r decoded (hc1Of r hc)
        | _ =>
          .reject (.writeErr "Denied container create: failed to cast CgroupParent to string" 400)

/-- handleContainerCreate from src/director.go lines 220-323. The body
argument is the result of the JSON decode into a map; the unchecked type
assertion on the HostConfig member panics when that member is absent or not
an object. -/
def handleContainerCreate (r : Config) (body : Except String JObj) : HResult JObj :=
  match body with
  | .error e => .reject (.writeErr e 400)
  | .ok decoded0 =>
    match lookupKV (addLabelAt decoded0 "Labels" ownerKey r.Owner) "HostConfig" with
    | some (.obj hc) => handleContainerCreateHC r (addLabelAt decoded0 "Labels" ownerKey r.Owner) hc
    | _ => .panics

/-- splitContainerDockerLink from src/director.go lines 355-369, returning
(container, alias). -/
def splitContainerDockerLink (input : String) : Except String (String × String) :=
  if input = "" then .error "Container Link is empty string, cannot proceed"
  else
    match (splitOnChar ':' input.data).map strOf with
    | [c] => .ok (c, c)
    | [c, a] => .ok (c, a)
    | parts => .error ("Expected 'name-or-id' or 'name-or-id:alias' (1 or 2 elements, : delimited), got "
        ++ toString parts.length ++ " elements from '" ++ input ++ "'")

/-- Synthetic connect call issued after a network create. -/
structure AttachCall where
  url : String
  body : String
deriving Repr, DecidableEq

/-- Result of an auxiliary Client.Do: a transport error or the HTTP status. -/
abbrev DoResult := Except String Nat

/-- Selection of the sibling container and endpoint-config fragment for the
attach after network create (src/director.go lines 406-424). -/
def useContainerOf (r : Config) : Except String (String × String) :=
  if r.ContainerDockerLink ≠ "" then
    match splitContainerDockerLink r.ContainerDockerLink with
    | .error e => .error e
    | .ok (c, _) => .ok (c, "")
  else if r.ContainerJoinNetwork ≠ "" then
    if r.ContainerJoinNetworkAlias ≠ "" then
      .ok (r.ContainerJoinNetwork,
        ",\"EndpointConfig\":\x7b\"Aliases\":[\"" ++ r.ContainerJoinNetworkAlias ++ "\"]\x7d")
    else .ok (r.ContainerJoinNetwork, "")
  else .ok ("", "")

/-- Synthetic connect call built by handleNetworkCreate (src/director.go
lines 426-429). -/
def attachCallOf (networkIdOrName useContainer endpointCfg : String) : AttachCall :=
  { url := "http://unix/v" ++ apiVersion ++ "/networks/" ++ networkIdOrName ++ "/connect",
    body := "\x7b\"Container\":\"" ++ useContainer ++ "\"" ++ endpointCfg ++ "\x7d" }

/-- handleNetworkCreate from src/director.go lines 371-448; attachDo
abstracts the auxiliary Client.Do of the synthetic connect. The payload is
the rewritten body plus the attach call, when one was issued. -/
def handleNetworkCreate (r : Config) (body : Except String JObj) (attachDo : DoResult) :
    HResult (JObj × Option AttachCall) :=
  match body with
  | .error e => .reject (.httpErr e 400)
  | .ok decoded0 =>
    match lookupKV decoded0 "Name" with
    | some (.str networkIdOrName) =>
      if r.ContainerDockerLink ≠ "" || r.ContainerJoinNetwork ≠ "" then
        match useContainerOf r with
        | .error e => .fwdThen (addLabelAt decoded0 "Labels" ownerKey r.Owner, none) (.httpErr e 400)
        | .ok (useContainer, endpointCfg) =>
          match attachDo with
          | .error e => .fwdThen (addLabelAt decoded0 "Labels" ownerKey r.Owner,
              some (attachCallOf networkIdOrName useContainer endpointCfg)) (.httpErr e 400)
          | .ok sc =>
            if sc = 200 then .fwd (addLabelAt decoded0 "Labels" ownerKey r.Owner,
              some (attachCallOf networkIdOrName useContainer endpointCfg))
            else .fwdThen (addLabelAt decoded0 "Labels" ownerKey r.Owner,
              some (attachCallOf networkIdOrName useContainer endpointCfg))
              (.httpErr ("Expected 200 got " ++ toString sc ++ " when attaching Container ID/Name '"
                ++ useContainer ++ "' to Network '" ++ networkIdOrName ++ "' (after creating)") 400)
      else .fwd (addLabelAt decoded0 "Labels" ownerKey r.Owner, none)
    | _ => .reject (.httpErr "Failed to obtain network name from request" 400)

/-- Synthetic disconnect call issued before a network delete. -/
structure DetachCall where
  url : String
  body : String
deriving Repr, DecidableEq

/-- Outcome of handleNetworkDelete: a generated rejection without forwarding,
or a forward of the delete recording the synthetic disconnect call when one
was issued. -/
inductive NetDeleteOutcome where
  | rejected (g : Gen)
  | forwarded (detach : Option DetachCall)
deriving Repr, DecidableEq

/-- Rendering of req.URL.String() for the requests handled here: the path
plus the raw query when one is present. -/
def urlString (reqPath rawQuery : String) : String :=
  reqPath ++ (if rawQuery = "" then "" else "?" ++ rawQuery)

/-- Sibling container selection of handleNetworkDelete (src/director.go lines
473-484): the container part of the parsed dockerLink, or the joinNetwork
value. -/
def siblingOf (r : Config) : Except String String :=
  if r.ContainerDockerLink ≠ "" then
    match splitContainerDockerLink r.ContainerDockerLink with
    | .error e => .error e
    | .ok (c, _) => Except.ok c
  else Except.ok r.ContainerJoinNetwork

/-- Synthetic disconnect call built by handleNetworkDelete (src/director.go
lines 486-489). -/
def detachCallOf (networkIdOrName useContainer : String) : DetachCall :=
  { url := "http://unix/v" ++ apiVersion ++ "/networks/" ++ networkIdOrName ++ "/disconnect",
    body := "\x7b\"Container\":\"" ++ useContainer ++ "\",\"Force\":true\x7d" }

/-- Slash components of the URL handleNetworkDelete parses the network name
from (src/director.go lines 466-471). -/
def netDeleteSplit (reqPath rawQuery : String) : List String :=
  (splitOnChar '/' (urlString reqPath rawQuery).data).map strOf

/-- handleNetworkDelete from src/director.go lines 450-513. The request URL
string is the path plus the optional raw query; detachDo abstracts the
auxiliary Client.Do of the synthetic disconnect. -/
def handleNetworkDelete (r : Config) (oracle : InspectOracle) (reqPath rawQuery : String)
    (detachDo : DoResult) : NetDeleteOutcome :=
  match checkOwner r oracle "networks" true reqPath with
  | .allow =>
    if r.ContainerDockerLink ≠ "" || r.ContainerJoinNetwork ≠ "" then
      if (netDeleteSplit reqPath rawQuery).length ≠ 4 then
        .rejected (.httpErr ("Unable to parse out URL '" ++ urlString reqPath rawQuery
          ++ "', expected 4 components, got "
          ++ toString (netDeleteSplit reqPath rawQuery).length) 400)
      else
        match siblingOf r with
        | .error e => .rejected (.httpErr e 400)
        | .ok useContainer =>
          match detachDo with
          | .error e => .rejected (.httpErr e 400)
          | .ok sc =>
            if sc = 200 then
              .forwarded (some (detachCallOf ((netDeleteSplit reqPath rawQuery).getD 3 "") useContainer))
            else .rejected (.httpErr ("Expected 200 got " ++ toString sc
              ++ " when detaching Container ID/Name '" ++ useContainer ++ "' from Network '"
              ++ ((netDeleteSplit reqPath rawQuery).getD 3 "") ++ "' (before deleting)") 400)
    else .forwarded none
  | .deny => .rejected (.httpErr "Deleting network denied, no error" 401)
  | .errNotFound => .rejected (.httpErr "Deleting network denied: Not found" 401)
  | .errFailed msg => .rejected (.httpErr ("Deleting network denied: " ++ msg) 401)

/-- addLabelsToBody from src/director.go lines 524-535 together with
modifyRequestBody (lines 686-705). -/
def addLabelsToBody (r : Config) (body : Except String JObj) : HResult JObj :=
  match body with
  | .error e => .reject (.httpErr e 400)
  | .ok decoded => .fwd (addLabelAt decoded "Labels" ownerKey r.Owner)

/-- handleBuild from src/director.go lines 593-635. The labels query
parameter arrives as its decode result (an absent or empty parameter decodes
to the empty map); cgroupparent is the plain string value Get returns. The
payload is the rewritten labels map plus the configured cgroupparent value,
when it was applied. -/
def handleBuild (r : Config) (labelsIn : Except String (List (String × String)))
    (cgroupparent : String) : HResult (List (String × String) × Option String) :=
  match labelsIn with
  | .error e => .reject (.httpErr e 400)
  | .ok labels0 =>
    if cgroupparent ≠ "" then
      .reject (.writeErr ("Image builds aren't allowed to set their own CgroupParent (received '"
        ++ cgroupparent ++ "')") 401)
    else if r.ContainerCgroupParent ≠ "" then
      .fwd (setKV labels0 ownerKey r.Owner, some r.ContainerCgroupParent)
    else .fwd (setKV labels0 ownerKey r.Owner, none)

/-- Decode state of the filters query parameter: absent or empty, malformed
JSON, or a decoded JSON object whose association-list order carries the
document member order and Go's unspecified map iteration order. -/
inductive FiltersParam where
  | absent
  | malformed (e : String)
  | decoded (m : JObj)

/-- Go type name rendered by the percent-T verb for a decoded JSON value. -/
def goTypeName : Json → String
  | .null => "<nil>"
  | .bool _ => "bool"
  | .num _ => "float64"
  | .str _ => "string"
  | .arr _ => "[]interface \x7b\x7d"
  | .obj _ => "map[string]interface \x7b\x7d"

/-- Append values for key k to the accumulating filters map; the Go
append-and-assign always writes the key. -/
def filtersAppend (acc : List (String × List Json)) (k : String) (vs : List Json) :
    List (String × List Json) :=
  setKV acc k ((lookupKV acc k).getD [] ++ vs)

/-- Entry-by-entry processing of the decoded filters object, in iteration
order (src/director.go lines 552-566): a nested object contributes its member
names as strings, an array contributes its elements, and any other value
aborts with the unhandled-type message. -/
def buildFilters : JObj → List (String × List Json) → Except String (List (String × List Json))
  | [], acc => .ok acc
  | (k, .obj tv) :: rest, acc =>
    buildFilters rest (tv.foldl (fun a kv => filtersAppend a k [.str kv.1]) acc)
  | (k, .arr xs) :: rest, acc => buildFilters rest (filtersAppend acc k xs)
  | (_, v) :: _, _ => .error ("Unhandled filter type of " ++ goTypeName v)

/-- Lexicographic byte order on character lists (the keys handled here are
ASCII, where codepoint order and UTF-8 byte order agree). -/
def charListLe : List Char → List Char → Bool
  | [], _ => true
  | _ :: _, [] => false
  | a :: as, b :: bs =>
    if a.toNat < b.toNat then true
    else if b.toNat < a.toNat then false
    else charListLe as bs

/-- String order used by json.Marshal when sorting Go map keys. -/
def strLeB (a b : String) : Bool := charListLe a.data b.data

/-- Insertion into a key-sorted list, modelling the sorted key order
json.Marshal gives a Go map. -/
def insertSorted (p : String × List Json) : List (String × List Json) → List (String × List Json)
  | [] => [p]
  | q :: qs => if strLeB p.1 q.1 then p :: q :: qs else q :: insertSorted p qs

/-- Key-sorting of the final filters map, as json.Marshal renders it. -/
def sortByKey (m : List (String × List Json)) : List (String × List Json) :=
  m.foldr insertSorted []

/-- addLabelsToQueryStringFilters from src/director.go lines 537-591: the
payload is the structured value marshalled back into the filters query
parameter; the label slice is created when absent (lines 569-572) and the
owner label appended (lines 574-577). -/
def ensureLabelKey (filters : List (String × List Json)) : List (String × List Json) :=
  if (lookupKV filters "label").isNone then filters ++ [("label", [])] else filters

/-- Decode step of the filters rewrite (src/director.go lines 543-567). -/
def filtersStart : FiltersParam → Except String (List (String × List Json))
  | .absent => .ok []
  | .malformed e => .error e
  | .decoded m => buildFilters m []

/-- Continuation of addLabelsToQueryStringFilters. -/
def addLabelsToQueryStringFilters (r : Config) (fin : FiltersParam) :
    HResult (List (String × List Json)) :=
  match filtersStart fin with
  | .error e => .reject (.httpErr e 400)
  | .ok filters0 =>
    .fwd (sortByKey (filtersAppend (ensureLabelKey filters0) "label"
      [.str (ownerKey ++ "=" ++ r.Owner)]))

/-- Concrete HTTP response the proxy writes for a generated (non-forwarded)
answer. -/
structure Response where
  status : Nat
  contentType : String
  body : String
deriving Repr, DecidableEq

/-- Hexadecimal digit rendering for control-character escapes. -/
def hexDigit (n : Nat) : Char :=
  if n < 10 then Char.ofNat (48 + n) else Char.ofNat (87 + n)

/-- JSON string escaping as encoding/json performs it with HTML escaping on:
quote, backslash, newline, carriage return, tab, the three HTML characters,
and remaining control characters. -/
def jsonEscapeChar (c : Char) : String :=
  if c = '"' then "\\\""
  else if c = '\\' then "\\\\"
  else if c = '\n' then "\\n"
  else if c = '\r' then "\\r"
  else if c = '\t' then "\\t"
  else if c = '<' then "\\u003c"
  else if c = '>' then "\\u003e"
  else if c = '&' then "\\u0026"
  else if c.toNat < 32 then "\\u00" ++ String.mk [hexDigit (c.toNat / 16), hexDigit (c.toNat % 16)]
  else String.singleton c

/-- Quoted JSON string literal. -/
def jsonQuote (s : String) : String :=
  "\"" ++ String.join (s.data.map jsonEscapeChar) ++ "\""

/-- writeError from src/director.go lines 41-47: JSON content type, the given
status, and the encoded single-member message document (json.Encoder appends
a newline). -/
def writeErrorResponse (msg : String) (code : Nat) : Response :=
  { status := code, contentType := "application/json",
    body := "\x7b\"message\":" ++ jsonQuote msg ++ "\x7d\n" }

/-- Go http.Error: plain-text content type and the message plus a newline. -/
def httpErrorResponse (msg : String) (code : Nat) : Response :=
  { status := code, contentType := "text/plain; charset=utf-8",
    body := msg ++ "\n" }

/-- Rendering of a generated response through its writing mechanism. -/
def Gen.render : Gen → Response
  | .writeErr m c => writeErrorResponse m c
  | .httpErr m c => httpErrorResponse m c

/-- Status code of a generated response. -/
def Gen.code : Gen → Nat
  | .writeErr _ c => c
  | .httpErr _ c => c

/-- Membership of a status code in the documented error-status set. -/
def goodCode (c : Nat) : Bool := c == 400 || c == 401 || c == 500 || c == 501

/-- Generated responses of a handler outcome. -/
def HResult.gens {α : Type} : HResult α → List Gen
  | .reject g => [g]
  | .fwdThen _ g => [g]
  | _ => []

/-- Generated responses of a Direct routing decision (its errorHandler uses
writeError). -/
def Handler.gens : Handler → List Gen
  | .errorH m c => [.writeErr m c]
  | _ => []

/-- Generated responses of a network delete outcome. -/
def NetDeleteOutcome.gens : NetDeleteOutcome → List Gen
  | .rejected g => [g]
  | _ => []

/-- All listed generated responses carry a documented status code. -/
def gensOk (gs : List Gen) : Bool := gs.all (fun g => goodCode g.code)

/-- Simplified HTTP request as the stream proxy handles it. -/
structure HttpRequest where
  method : String
  path : String
  headers : List (String × String)
  body : String
deriving Repr, DecidableEq

/-- Go http.Header.Set: every existing binding of the key is replaced by the
single new value. -/
def headerSet (hs : List (String × String)) (k v : String) : List (String × String) :=
  (hs.filter (fun p => !(p.1 == k))) ++ [(k, v)]

/-- Modelled from the spec: the Director-aware socketproxy ServeHTTP is code
of this repository missing from src — src/socketproxy/proxy.go holds a
pre-Director revision (its New takes only a path, and the Logger,
DirectorFunc and Debug declarations used by src/main.go and by
src/socketproxy/proxy_test.go are absent), so the upstream-forwarding step is
taken from spec section 4.5: after hijacking, the proxy forces the header
Connection: close on the request and then serializes it onto the upstream
socket. -/
def upstreamSerializedRequest (req : HttpRequest) : HttpRequest :=
  { req with headers := headerSet req.headers "Connection" "close" }

/-! Lemmas about the association-list map operations, shared by several
claims. -/

/-- Reading back the key just written. -/
theorem lookupKV_setKV_eq {α : Type} (m : List (String × α)) (k : String) (v : α) :
    lookupKV (setKV m k v) k = some v := by
  induction m with
  | nil => simp [setKV, lookupKV]
  | cons p rest ih =>
    obtain ⟨k', v'⟩ := p
    by_cases h : k' = k
    · simp [setKV, lookupKV, h]
    · simp [setKV, lookupKV, h, ih]

/-- Writing one key leaves the others unchanged. -/
theorem lookupKV_setKV_ne {α : Type} (m : List (String × α)) (k k2 : String) (v : α)
    (h : k ≠ k2) : lookupKV (setKV m k v) k2 = lookupKV m k2 := by
  induction m with
  | nil => simp [setKV, lookupKV, h]
  | cons p rest ih =>
    obtain ⟨k', v'⟩ := p
    by_cases hk : k' = k
    · subst hk; simp [setKV, lookupKV, h]
    · simp [setKV, lookupKV, hk, ih]

/-- The label insertion touches only its own slot. -/
theorem lookupKV_addLabelAt_ne (d : JObj) (kk l v k2 : String) (h : kk ≠ k2) :
    lookupKV (addLabelAt d kk l v) k2 = lookupKV d k2 := by
  unfold addLabelAt
  cases hl : lookupKV d kk with
  | none => rfl
  | some j => cases j <;> simp [lookupKV_setKV_ne _ _ _ _ h]

/-- When the slot holds an object, the label insertion updates it in place. -/
theorem lookupKV_addLabelAt_obj (d : JObj) (kk l v : String) (m : JObj)
    (h : lookupKV d kk = some (.obj m)) :
    lookupKV (addLabelAt d kk l v) kk = some (.obj (setKV m l (.str v))) := by
  unfold addLabelAt
  rw [h]
  exact lookupKV_setKV_eq d kk (Json.obj (setKV m l (Json.str v)))

/-! Claim theorems. -/

/-- Claim C1, evaluation of the code at the failing input: the claim says
every GET or POST on networks/{id} and on networks/{id}/connect|disconnect
runs the network owner gate, answering 401 when the inspect shows a foreign
owner label. In src/director.go lines 127-144 that branch reads and prints
the request body and returns the upstream handler unconditionally — the
checkOwner block below the return is unreachable — so a network whose labels
carry a different owner is forwarded anyway. -/
theorem C1_networks_owner_gate_bypassed :
    Direct { Owner := "test-owner" } (fun _ _ => .found [(ownerKey, "someone-else")])
      "GET" "/v1.32/networks/mynet" none = .upstream ∧
    Direct { Owner := "test-owner" } (fun _ _ => .found [(ownerKey, "someone-else")])
      "POST" "/v1.32/networks/mynet/connect" none = .upstream :=
  ⟨rfl, rfl⟩

/-- Claim C5, evaluation of the code at the failing input: the claim says a
non-empty configured cgroupParent overwrites the client-supplied value and
the request is forwarded, rejection happening only under an empty
configuration. In src/director.go lines 268-273 (container create) and
618-623 (build) any non-empty client value is rejected 401 before the
configured value is consulted — the code's own comments and log text say the
rejection is for when the flag is disabled. -/
theorem C5_client_cgroupparent_always_rejected :
    handleContainerCreate { Owner := "o", ContainerCgroupParent := "some-cgroup" }
      (.ok [("HostConfig", .obj [("CgroupParent", .str "mine")])])
      = .reject (.writeErr "Containers aren't allowed to set their own CgroupParent (received 'mine')" 401) ∧
    handleBuild { Owner := "o", ContainerCgroupParent := "some-cgroup" } (.ok []) "mine"
      = .reject (.writeErr "Image builds aren't allowed to set their own CgroupParent (received 'mine')" 401) :=
  ⟨rfl, rfl⟩

/-- Claim C10: on any syntactically valid create body whose HostConfig member
is absent or not a JSON object, handleContainerCreate evaluates the unchecked
type assertion and panics instead of producing an error response. -/
theorem C10_hostconfig_assertion_panics (r : Config) (decoded : JObj)
    (h : ∀ hc, lookupKV decoded "HostConfig" ≠ some (.obj hc)) :
    handleContainerCreate r (.ok decoded) = .panics := by
  have hne : ("Labels" : String) ≠ "HostConfig" := by decide
  unfold handleContainerCreate
  have hrw := lookupKV_addLabelAt_ne decoded "Labels" ownerKey r.Owner "HostConfig" hne
  cases hl : lookupKV decoded "HostConfig" with
  | none => simp only [hrw, hl]
  | some j =>
    cases j with
    | obj hc => exact absurd hl (h hc)
    | null => simp only [hrw, hl]
    | bool b => simp only [hrw, hl]
    | num n => simp only [hrw, hl]
    | str s => simp only [hrw, hl]
    | arr xs => simp only [hrw, hl]

/-- Witness for C10 at the empty body object. -/
theorem C10_hostconfig_assertion_panics_witness :
    (∀ hc, lookupKV ([] : JObj) "HostConfig" ≠ some (.obj hc)) ∧
    handleContainerCreate { Owner := "o" } (.ok []) = .panics := by
  refine ⟨fun hc => by simp [lookupKV], ?_⟩
  exact C10_hostconfig_assertion_panics { Owner := "o" } [] (fun hc => by simp [lookupKV])

/-- Claim C2 counterexample: a volume create whose body lacks a Labels member
is forwarded upstream unchanged — no Labels map is created and the forwarded
request carries no owner label, against the claim's parenthetical that the
map is created when the client body lacks one. -/
theorem C2_counterexample_labels_map_not_created :
    addLabelsToBody { Owner := "test-owner" } (.ok []) = .fwd [] ∧
    lookupKV ([] : JObj) "Labels" = none :=
  ⟨rfl, rfl⟩

/-- Claim C3 counterexample: handleNetworkCreate rejects a body without a
Name member through Go http.Error, whose rendered response is plain text, not
the claimed application/json message document. -/
theorem C3_counterexample_plaintext_error :
    handleNetworkCreate { Owner := "o" } (.ok []) (.ok 200)
      = .reject (.httpErr "Failed to obtain network name from request" 400) ∧
    (Gen.render (.httpErr "Failed to obtain network name from request" 400)).contentType
      = "text/plain; charset=utf-8" ∧
    ("text/plain; charset=utf-8" : String) ≠ "application/json" :=
  ⟨rfl, rfl, by decide⟩

/-- Claim C8 counterexample: POST /images/create is passed through to the
upstream with no owner check (the oracle reporting a foreign owner is never
consulted), and POST /images/search falls through the images rows to the 501
fallthrough — neither is handled by the image owner check. -/
theorem C8_counterexample_images_create_and_search :
    Direct { Owner := "test-owner" } (fun _ _ => .found [(ownerKey, "someone-else")])
      "POST" "/v1.32/images/create" none = .upstream ∧
    Direct { Owner := "test-owner" } (fun _ _ => .found [(ownerKey, "someone-else")])
      "POST" "/v1.32/images/search" none
      = .errorH "POST /v1.32/images/search not implemented yet" 501 :=
  ⟨rfl, rfl⟩

/-- Claim C9 counterexample: a DELETE on an unversioned networks URL, with
the owner check allowing and dockerLink configured, is rejected 400 because
the URL does not split into exactly four slash-separated components — no
disconnect is issued and the delete is not forwarded, against the claim's
unconditional promise. -/
theorem C9_counterexample_unversioned_url :
    handleNetworkDelete { Owner := "o", ContainerDockerLink := "agent" }
      (fun _ _ => .found [(ownerKey, "o")]) "/networks/foo" "" (.ok 200)
      = .rejected (.httpErr "Unable to parse out URL '/networks/foo', expected 4 components, got 3" 400) :=
  rfl

/-- Reading the key appended behind bindings that all carry other keys. -/
theorem lookupKV_append_single {α : Type} (l : List (String × α)) (k : String) (v : α)
    (h : ∀ p ∈ l, p.1 ≠ k) : lookupKV (l ++ [(k, v)]) k = some v := by
  induction l with
  | nil => simp [lookupKV]
  | cons p t ih =>
    obtain ⟨k', v'⟩ := p
    have hp : k' ≠ k := h (k', v') (by simp)
    simp only [List.cons_append, lookupKV, if_neg hp]
    exact ih (fun q hq => h q (List.mem_cons_of_mem _ hq))

/-- Claim C6 (modelled from the spec, the Director-aware ServeHTTP being
absent from src): the serialized upstream request always carries exactly one
Connection header, with value close, regardless of what the client sent. -/
theorem C6_connection_close_forced (req : HttpRequest) :
    lookupKV (upstreamSerializedRequest req).headers "Connection" = some "close" ∧
    ((upstreamSerializedRequest req).headers.filter
        (fun p => p.1 == "Connection")).map Prod.snd = ["close"] := by
  constructor
  · unfold upstreamSerializedRequest headerSet
    apply lookupKV_append_single
    intro p hp
    have hmem := List.of_mem_filter hp
    simpa using hmem
  · unfold upstreamSerializedRequest headerSet
    rw [List.filter_append]
    have h1 : (req.headers.filter (fun p => !(p.1 == "Connection"))).filter
        (fun p => p.1 == "Connection") = [] := by
      rw [List.filter_eq_nil_iff]
      intro p hp
      have hmem := List.of_mem_filter hp
      simpa using hmem
    rw [h1]
    simp

/-- Head chunk of strings.Split: everything before the first separator. -/
theorem splitOnChar_head (sep : Char) (cs : List Char) :
    ∃ t, splitOnChar sep cs = (cs.takeWhile (fun c => c != sep)) :: t := by
  induction cs with
  | nil => exact ⟨[], rfl⟩
  | cons c rest ih =>
    by_cases h : c = sep
    · subst h
      exact ⟨splitOnChar c rest, by simp [splitOnChar, List.takeWhile_cons]⟩
    · obtain ⟨t, ht⟩ := ih
      refine ⟨t, ?_⟩
      simp [splitOnChar, ht, h, List.takeWhile_cons]

/-- The two spellings of the host-path character test agree. -/
theorem anyBindChars (cs : List Char) :
    (cs.any fun c => c == '.' || c == '\\' || c == '/')
      = (cs.any fun c => c == '.' || c == '/' || c == '\\') := by
  induction cs with
  | nil => rfl
  | cons c rest ih =>
    simp only [List.any_cons, ih]
    cases h1 : (c == '.') <;> cases h2 : (c == '/') <;> cases h3 : (c == '\\') <;> rfl

/-- The code's bind rule equals the claim's formulation. -/
theorem isBindAllowed_eq_spec (bind : String) (allowed : List String) :
    isBindAllowed bind allowed = bindAllowedSpec allowed bind := by
  obtain ⟨t, ht⟩ := splitOnChar_head ':' bind.data
  unfold isBindAllowed bindAllowedSpec
  rw [ht]
  simp only []
  rw [anyBindChars]

/-- A disallowed bind string anywhere in the list makes the scan reject. -/
theorem checkBinds_finds_bad (allowed : List String) (bs : List String)
    (h : ∃ b ∈ bs, isBindAllowed b allowed = false) :
    checkBinds allowed (bs.map Json.str) = .rejected := by
  induction bs with
  | nil => simp at h
  | cons b rest ih =>
    obtain ⟨x, hx, hbad⟩ := h
    by_cases hb : isBindAllowed b allowed = false
    · simp [checkBinds, hb]
    · have hbtrue : isBindAllowed b allowed = true := by
        cases hba : isBindAllowed b allowed
        · exact absurd hba hb
        · rfl
      have hx2 : x ∈ rest := by
        rcases List.mem_cons.mp hx with h1 | h1
        · subst h1; exact absurd hbad hb
        · exact h1
      simp only [List.map_cons, checkBinds, hbtrue]
      simpa using ih ⟨x, hx2, hbad⟩

/-- Claim C4: the bind source (text before the first colon) is a host path
iff it contains a dot, slash or backslash; otherwise the bind is always
permitted as a named volume; a host path is permitted iff the slash-prepended
lexically cleaned source starts with a configured allowBinds prefix; and on
container create any disallowed bind rejects 401 with the message from the
code, without forwarding. -/
theorem C4_bind_policy (bind : String) (allowed : List String) (r : Config)
    (decoded hc : JObj) (binds : List String)
    (hhc : lookupKV decoded "HostConfig" = some (.obj hc))
    (hpriv : lookupKV hc "Privileged" ≠ some (.bool true))
    (hbinds : lookupKV hc "Binds" = some (.arr (binds.map Json.str)))
    (hbad : ∃ b ∈ binds, bindAllowedSpec r.AllowBinds b = false) :
    isBindAllowed bind allowed = bindAllowedSpec allowed bind ∧
    handleContainerCreate r (.ok decoded) = .reject (.writeErr "Host binds aren't allowed" 401) := by
  refine ⟨isBindAllowed_eq_spec bind allowed, ?_⟩
  have hbad2 : ∃ b ∈ binds, isBindAllowed b r.AllowBinds = false := by
    obtain ⟨b, hb, hbb⟩ := hbad
    exact ⟨b, hb, by rw [isBindAllowed_eq_spec]; exact hbb⟩
  have hrw := lookupKV_addLabelAt_ne decoded "Labels" ownerKey r.Owner "HostConfig" (by decide)
  have hprivf : privilegedOf hc = false := by
    unfold privilegedOf
    cases hp : lookupKV hc "Privileged" with
    | none => rfl
    | some j =>
      cases j with
      | bool b =>
        cases b with
        | true => exact absurd hp hpriv
        | false => rfl
      | null => rfl
      | num n => rfl
      | str s => rfl
      | arr xs => rfl
      | obj kvs => rfl
  have hscan : bindsScanOf r hc = .rejected := by
    unfold bindsScanOf
    rw [hbinds]
    exact checkBinds_finds_bad r.AllowBinds binds hbad2
  unfold handleContainerCreate
  simp only [hrw, hhc]
  unfold handleContainerCreateHC
  simp only [hprivf, hscan]
  simp

/-- Witness for C4 at a concrete denied bind. -/
theorem C4_bind_policy_witness :
    (lookupKV [("HostConfig", Json.obj [("Binds", Json.arr [Json.str "/etc:/etc"])])] "HostConfig"
        = some (.obj [("Binds", Json.arr [Json.str "/etc:/etc"])])) ∧
    (lookupKV [("Binds", Json.arr [Json.str "/etc:/etc"])] "Privileged" ≠ some (.bool true)) ∧
    (lookupKV [("Binds", Json.arr [Json.str "/etc:/etc"])] "Binds"
        = some (.arr (["/etc:/etc"].map Json.str))) ∧
    (∃ b ∈ ["/etc:/etc"], bindAllowedSpec ["/tmp"] b = false) ∧
    (isBindAllowed "/tmp/x:/x" ["/tmp"] = bindAllowedSpec ["/tmp"] "/tmp/x:/x" ∧
      handleContainerCreate { Owner := "o", AllowBinds := ["/tmp"] }
        (.ok [("HostConfig", Json.obj [("Binds", Json.arr [Json.str "/etc:/etc"])])])
        = .reject (.writeErr "Host binds aren't allowed" 401)) := by
  refine ⟨rfl, by simp [lookupKV], rfl, ⟨"/etc:/etc", by simp, by decide⟩, ?_⟩
  exact C4_bind_policy "/tmp/x:/x" ["/tmp"] { Owner := "o", AllowBinds := ["/tmp"] }
    [("HostConfig", Json.obj [("Binds", Json.arr [Json.str "/etc:/etc"])])]
    [("Binds", Json.arr [Json.str "/etc:/etc"])] ["/etc:/etc"]
    rfl (by simp [lookupKV]) rfl ⟨"/etc:/etc", by simp, by decide⟩

/-- The final container-create step never touches the Labels slot. -/
theorem ccFinish_labels (r : Config) (decoded hcF : JObj) (b : JObj)
    (h : ccFinish r decoded hcF = .fwd b) :
    lookupKV b "Labels" = lookupKV decoded "Labels" := by
  unfold ccFinish at h
  simp only [HResult.fwd.injEq] at h
  subst h
  by_cases hu : r.User ≠ ""
  · rw [if_pos hu, lookupKV_setKV_ne _ _ _ _ (by decide), lookupKV_setKV_ne _ _ _ _ (by decide)]
  · rw [if_neg hu, lookupKV_setKV_ne _ _ _ _ (by decide)]

/-- Shape of every container-create continuation result: a rejection, a
panic, or the final marshalling step on some HostConfig map. -/
theorem hcc_cases (r : Config) (decoded hc : JObj) :
    (∃ g, handleContainerCreateHC r decoded hc = .reject g) ∨
    handleContainerCreateHC r decoded hc = .panics ∨
    (∃ hcF, handleContainerCreateHC r decoded hc = ccFinish r decoded hcF) := by
  unfold handleContainerCreateHC
  repeat' split
  all_goals first
    | (left; exact ⟨_, rfl⟩)
    | (right; left; rfl)
    | (right; right; exact ⟨_, rfl⟩)

/-- Any body the container-create handler forwards keeps the Labels slot of
the label-stamped decoded object. -/
theorem hcc_fwd_labels (r : Config) (decoded hc : JObj) (b : JObj)
    (h : handleContainerCreateHC r decoded hc = .fwd b) :
    lookupKV b "Labels" = lookupKV decoded "Labels" := by
  rcases hcc_cases r decoded hc with ⟨g, hg⟩ | hg | ⟨hcF, hg⟩
  · rw [hg] at h; exact absurd h (by simp)
  · rw [hg] at h; exact absurd h (by simp)
  · rw [hg] at h; exact ccFinish_labels _ _ _ _ h

/-- Any body the network-create handler forwards is the label-stamped decoded
object. -/
theorem hnc_fwd_body (r : Config) (d : JObj) (ad : DoResult) (b : JObj) (ac : Option AttachCall)
    (h : handleNetworkCreate r (.ok d) ad = .fwd (b, ac) ∨
         ∃ g, handleNetworkCreate r (.ok d) ad = .fwdThen (b, ac) g) :
    b = addLabelAt d "Labels" ownerKey r.Owner := by
  rcases h with h | ⟨g, h⟩ <;>
  · unfold handleNetworkCreate at h
    repeat' split at h
    all_goals simp_all

/-- Claim C2 amended: for every create request the proxy forwards upstream
whose client body already carries a Labels JSON object, the forwarded body
holds the owner label inside that object (when the member is missing or not
an object no map is created, see the counterexample); the labels query
parameter of build always receives the owner label. -/
theorem C2_amended_owner_label_on_create (r : Config) (d m : JObj)
    (hm : lookupKV d "Labels" = some (.obj m)) :
    (∀ b, handleContainerCreate r (.ok d) = .fwd b →
      ∃ m2, lookupKV b "Labels" = some (.obj m2) ∧ lookupKV m2 ownerKey = some (.str r.Owner)) ∧
    (∀ b ac ad, (handleNetworkCreate r (.ok d) ad = .fwd (b, ac) ∨
        ∃ g, handleNetworkCreate r (.ok d) ad = .fwdThen (b, ac) g) →
      ∃ m2, lookupKV b "Labels" = some (.obj m2) ∧ lookupKV m2 ownerKey = some (.str r.Owner)) ∧
    (∀ b, addLabelsToBody r (.ok d) = .fwd b →
      ∃ m2, lookupKV b "Labels" = some (.obj m2) ∧ lookupKV m2 ownerKey = some (.str r.Owner)) ∧
    (∀ lin cgp lm c2, handleBuild r lin cgp = .fwd (lm, c2) →
      lookupKV lm ownerKey = some r.Owner) := by
  have hlab : lookupKV (addLabelAt d "Labels" ownerKey r.Owner) "Labels"
      = some (.obj (setKV m ownerKey (.str r.Owner))) :=
    lookupKV_addLabelAt_obj d "Labels" ownerKey r.Owner m hm
  have hset : lookupKV (setKV m ownerKey (Json.str r.Owner)) ownerKey = some (.str r.Owner) :=
    lookupKV_setKV_eq m ownerKey (Json.str r.Owner)
  refine ⟨?_, ?_, ?_, ?_⟩
  · intro b hb
    unfold handleContainerCreate at hb
    cases hhc : lookupKV (addLabelAt d "Labels" ownerKey r.Owner) "HostConfig" with
    | none => simp only [hhc] at hb; exact absurd hb (by simp)
    | some j =>
      simp only [hhc] at hb
      cases j with
      | obj hc =>
        have hpres := hcc_fwd_labels r (addLabelAt d "Labels" ownerKey r.Owner) hc b hb
        exact ⟨setKV m ownerKey (.str r.Owner), by rw [hpres]; exact hlab, hset⟩
      | null => exact absurd hb (by simp)
      | bool bb => exact absurd hb (by simp)
      | num n => exact absurd hb (by simp)
      | str s => exact absurd hb (by simp)
      | arr xs => exact absurd hb (by simp)
  · intro b ac ad hb
    have hbeq := hnc_fwd_body r d ad b ac hb
    subst hbeq
    exact ⟨setKV m ownerKey (.str r.Owner), hlab, hset⟩
  · intro b hb
    unfold addLabelsToBody at hb
    simp only [HResult.fwd.injEq] at hb
    subst hb
    exact ⟨setKV m ownerKey (.str r.Owner), hlab, hset⟩
  · intro lin cgp lm c2 hb
    cases lin with
    | error e => exact absurd hb (by simp [handleBuild])
    | ok labels0 =>
      simp only [handleBuild] at hb
      by_cases hcg : cgp ≠ ""
      · rw [if_pos hcg] at hb; exact absurd hb (by simp)
      · rw [if_neg hcg] at hb
        by_cases hcp : r.ContainerCgroupParent ≠ ""
        · rw [if_pos hcp] at hb
          simp only [HResult.fwd.injEq, Prod.mk.injEq] at hb
          rw [← hb.1]
          exact lookupKV_setKV_eq labels0 ownerKey r.Owner
        · rw [if_neg hcp] at hb
          simp only [HResult.fwd.injEq, Prod.mk.injEq] at hb
          rw [← hb.1]
          exact lookupKV_setKV_eq labels0 ownerKey r.Owner

/-- Witness for the amended C2 at a concrete body carrying a Labels object. -/
theorem C2_amended_owner_label_on_create_witness :
    (lookupKV [("Labels", Json.obj []), ("HostConfig", Json.obj [("CgroupParent", Json.str "")])]
        "Labels" = some (.obj [])) ∧
    (∀ b, handleContainerCreate { Owner := "test-owner" }
        (.ok [("Labels", Json.obj []), ("HostConfig", Json.obj [("CgroupParent", Json.str "")])]) = .fwd b →
      ∃ m2, lookupKV b "Labels" = some (.obj m2) ∧
        lookupKV m2 ownerKey = some (.str "test-owner")) := by
  refine ⟨rfl, ?_⟩
  exact (C2_amended_owner_label_on_create { Owner := "test-owner" }
    [("Labels", Json.obj []), ("HostConfig", Json.obj [("CgroupParent", Json.str "")])] [] rfl).1

/-- Claim C8 amended: after version stripping and under first-match-wins
ordering, every request whose stripped path matches the images word-and-
boundary row and does not match the earlier image rows — GET /images/json,
POST /images/(create|search|get|load) (create is passed through unmodified by
its own row, the others fall to the 501 fallthrough), POST /images/prune — is
handled by the image owner check with allowMissingLabel true; in particular
POST /images/create and POST /images/search are not owner-checked. -/
theorem C8_amended_images_fallthrough (r : Config) (oracle : InspectOracle)
    (method reqPath : String) (berr : Option String) (c : Char) (rest : List Char)
    (hshape : stripVersionL reqPath.data = '/' :: 'i' :: 'm' :: 'a' :: 'g' :: 'e' :: 's' :: '/' :: c :: rest)
    (hw : isWordChar c = true)
    (h1 : (method == "GET" && stripVersionL reqPath.data == "/images/json".data) = false)
    (h3 : (method == "POST" && (stripVersionL reqPath.data == "/images/create".data
        || stripVersionL reqPath.data == "/images/search".data
        || stripVersionL reqPath.data == "/images/get".data
        || stripVersionL reqPath.data == "/images/load".data)) = false)
    (h4 : (method == "POST" && stripVersionL reqPath.data == "/images/prune".data) = false) :
    Direct r oracle method reqPath berr =
      ownerGate (checkOwner r oracle "images" true reqPath) "Unauthorized access to image" := by
  have h2 : (method == "POST" && stripVersionL reqPath.data == "/images/create".data) = false := by
    cases hmp : (method == "POST") with
    | false => simp [hmp]
    | true =>
      simp only [hmp, Bool.true_and] at h3 ⊢
      cases hc2 : (stripVersionL reqPath.data == "/images/create".data) with
      | false => rfl
      | true => rw [hc2] at h3; simp at h3
  unfold Direct
  rw [hshape] at h1 h2 h3 h4
  simp only [hshape]
  have q01 : (('/' :: 'i' :: 'm' :: 'a' :: 'g' :: 'e' :: 's' :: '/' :: c :: rest) == "/_ping".data) = false := rfl
  have q02 : (('/' :: 'i' :: 'm' :: 'a' :: 'g' :: 'e' :: 's' :: '/' :: c :: rest) == "/version".data) = false := rfl
  have q03 : (('/' :: 'i' :: 'm' :: 'a' :: 'g' :: 'e' :: 's' :: '/' :: c :: rest) == "/info".data) = false := rfl
  have q04 : (('/' :: 'i' :: 'm' :: 'a' :: 'g' :: 'e' :: 's' :: '/' :: c :: rest) == "/events".data) = false := rfl
  have q05 : (('/' :: 'i' :: 'm' :: 'a' :: 'g' :: 'e' :: 's' :: '/' :: c :: rest) == "/containers/create".data) = false := rfl
  have q06 : (('/' :: 'i' :: 'm' :: 'a' :: 'g' :: 'e' :: 's' :: '/' :: c :: rest) == "/containers/prune".data) = false := rfl
  have q07 : (('/' :: 'i' :: 'm' :: 'a' :: 'g' :: 'e' :: 's' :: '/' :: c :: rest) == "/containers/json".data) = false := rfl
  have q08 : matchContainersExec ('/' :: 'i' :: 'm' :: 'a' :: 'g' :: 'e' :: 's' :: '/' :: c :: rest) = false := rfl
  have q09 : (('/' :: 'i' :: 'm' :: 'a' :: 'g' :: 'e' :: 's' :: '/' :: c :: rest) == "/build".data) = false := rfl
  have q10 : matchImagesWord ('/' :: 'i' :: 'm' :: 'a' :: 'g' :: 'e' :: 's' :: '/' :: c :: rest) = isWordChar c := rfl
  have q11 : (('/' :: 'i' :: 'm' :: 'a' :: 'g' :: 'e' :: 's' :: '/' :: c :: rest) == "/networks".data) = false := rfl
  have q12 : (('/' :: 'i' :: 'm' :: 'a' :: 'g' :: 'e' :: 's' :: '/' :: c :: rest) == "/networks/create".data) = false := rfl
  have q13 : (('/' :: 'i' :: 'm' :: 'a' :: 'g' :: 'e' :: 's' :: '/' :: c :: rest) == "/networks/prune".data) = false := rfl
  have q14 : matchNetworksAny ('/' :: 'i' :: 'm' :: 'a' :: 'g' :: 'e' :: 's' :: '/' :: c :: rest) = false := rfl
  have q15 : matchNetConnDis ('/' :: 'i' :: 'm' :: 'a' :: 'g' :: 'e' :: 's' :: '/' :: c :: rest) = false := rfl
  have q16 : (('/' :: 'i' :: 'm' :: 'a' :: 'g' :: 'e' :: 's' :: '/' :: c :: rest) == "/volumes".data) = false := rfl
  have q17 : (('/' :: 'i' :: 'm' :: 'a' :: 'g' :: 'e' :: 's' :: '/' :: c :: rest) == "/volumes/create".data) = false := rfl
  have q18 : (('/' :: 'i' :: 'm' :: 'a' :: 'g' :: 'e' :: 's' :: '/' :: c :: rest) == "/volumes/prune".data) = false := rfl
  have q19 : matchVolumesId ('/' :: 'i' :: 'm' :: 'a' :: 'g' :: 'e' :: 's' :: '/' :: c :: rest) = false := rfl
  simp only [q01, q02, q03, q04, q05, q06, q07, q08, q09, q10, q11, q12, q13, q14, q15, q16,
    q17, q18, q19, h1, h2, h3, h4, hw, Bool.and_false, Bool.false_and, Bool.or_false,
    Bool.false_or, Bool.or_self, Bool.and_self]
  simp


/-- Witness for the amended C8 at DELETE /v1.32/images/foo with a foreign
owner label. -/
theorem C8_amended_images_fallthrough_witness :
    (stripVersionL "/v1.32/images/foo".data
      = '/' :: 'i' :: 'm' :: 'a' :: 'g' :: 'e' :: 's' :: '/' :: 'f' :: "oo".data) ∧
    (isWordChar 'f' = true) ∧
    Direct { Owner := "test-owner" } (fun _ _ => .found [(ownerKey, "someone-else")])
        "DELETE" "/v1.32/images/foo" none
      = ownerGate (checkOwner { Owner := "test-owner" }
          (fun _ _ => .found [(ownerKey, "someone-else")]) "images" true "/v1.32/images/foo")
          "Unauthorized access to image" := by
  refine ⟨rfl, rfl, ?_⟩
  exact C8_amended_images_fallthrough { Owner := "test-owner" }
    (fun _ _ => .found [(ownerKey, "someone-else")]) "DELETE" "/v1.32/images/foo" none
    'f' "oo".data rfl rfl (by decide) (by decide) (by decide)

/-- Claim C9 amended: the network delete handler answers 401 without
forwarding when the owner check denies; when the check allows and dockerLink
or joinNetwork is configured, then provided the request URL splits into
exactly four slash components (as a versioned networks URL does) and the
sibling resolves, it issues the disconnect POST on /v1.32 with the Force
body and forwards the delete exactly when that call returns 200; any other
component count is rejected 400 without forwarding. -/
theorem C9_amended_network_delete (r : Config) (oracle : InspectOracle)
    (reqPath rawQuery : String) (dd : DoResult) (sib : String) :
    (∀ id s, (detachCallOf id s).url = "http://unix/v1.32/networks/" ++ id ++ "/disconnect" ∧
      (detachCallOf id s).body = "\x7b\"Container\":\"" ++ s ++ "\",\"Force\":true\x7d") ∧
    (checkOwner r oracle "networks" true reqPath = .deny →
      handleNetworkDelete r oracle reqPath rawQuery dd
        = .rejected (.httpErr "Deleting network denied, no error" 401)) ∧
    (checkOwner r oracle "networks" true reqPath = .allow →
      (r.ContainerDockerLink ≠ "" ∨ r.ContainerJoinNetwork ≠ "") →
      siblingOf r = .ok sib →
      (netDeleteSplit reqPath rawQuery).length = 4 →
      (dd = .ok 200 →
        handleNetworkDelete r oracle reqPath rawQuery dd
          = .forwarded (some (detachCallOf ((netDeleteSplit reqPath rawQuery).getD 3 "") sib))) ∧
      (∀ sc, dd = .ok sc → sc ≠ 200 →
        ∃ msg, handleNetworkDelete r oracle reqPath rawQuery dd
          = .rejected (.httpErr msg 400)) ∧
      (∀ e, dd = .error e →
        handleNetworkDelete r oracle reqPath rawQuery dd = .rejected (.httpErr e 400))) ∧
    (checkOwner r oracle "networks" true reqPath = .allow →
      (r.ContainerDockerLink ≠ "" ∨ r.ContainerJoinNetwork ≠ "") →
      (netDeleteSplit reqPath rawQuery).length ≠ 4 →
      ∃ msg, handleNetworkDelete r oracle reqPath rawQuery dd
        = .rejected (.httpErr msg 400)) := by
  refine ⟨fun id s => ⟨rfl, rfl⟩, ?_, ?_, ?_⟩
  · intro hden
    unfold handleNetworkDelete
    rw [hden]
  · intro hallow hs hsib hlen
    have hcond : (decide (r.ContainerDockerLink ≠ "") || decide (r.ContainerJoinNetwork ≠ "")) = true := by
      rcases hs with h | h <;> simp [h]
    refine ⟨?_, ?_, ?_⟩
    · intro hdd
      subst hdd
      unfold handleNetworkDelete
      rw [hallow]
      simp only [hcond, if_true, if_neg (by simp [hlen] : ¬(netDeleteSplit reqPath rawQuery).length ≠ 4),
        hsib]
    · intro sc hdd hsc
      subst hdd
      unfold handleNetworkDelete
      rw [hallow]
      simp only [hcond, if_true, if_neg (by simp [hlen] : ¬(netDeleteSplit reqPath rawQuery).length ≠ 4),
        hsib]
      simp [hsc]
    · intro e hdd
      subst hdd
      unfold handleNetworkDelete
      rw [hallow]
      simp only [hcond, if_true, if_neg (by simp [hlen] : ¬(netDeleteSplit reqPath rawQuery).length ≠ 4),
        hsib]
  · intro hallow hs hlen
    have hcond : (decide (r.ContainerDockerLink ≠ "") || decide (r.ContainerJoinNetwork ≠ "")) = true := by
      rcases hs with h | h <;> simp [h]
    unfold handleNetworkDelete
    rw [hallow]
    simp only [hcond, if_true, if_pos hlen]
    exact ⟨_, rfl⟩

/-- Witness for the amended C9 at a versioned delete with dockerLink set. -/
theorem C9_amended_network_delete_witness :
    (checkOwner { Owner := "o", ContainerDockerLink := "agent:al" }
        (fun _ _ => .found [(ownerKey, "o")]) "networks" true "/v1.32/networks/foo" = .allow) ∧
    (siblingOf { Owner := "o", ContainerDockerLink := "agent:al" } = .ok "agent") ∧
    ((netDeleteSplit "/v1.32/networks/foo" "").length = 4) ∧
    (handleNetworkDelete { Owner := "o", ContainerDockerLink := "agent:al" }
        (fun _ _ => .found [(ownerKey, "o")]) "/v1.32/networks/foo" "" (.ok 200)
      = .forwarded (some (detachCallOf ((netDeleteSplit "/v1.32/networks/foo" "").getD 3 "") "agent"))) := by
  refine ⟨rfl, rfl, rfl, ?_⟩
  exact ((C9_amended_network_delete { Owner := "o", ContainerDockerLink := "agent:al" }
    (fun _ _ => .found [(ownerKey, "o")]) "/v1.32/networks/foo" "" (.ok 200) "agent").2.2.1
    rfl (Or.inl (by decide)) rfl rfl).1 rfl

/-- Every routing decision generates only writeError documents with
documented codes. -/
theorem direct_gens_ok (r : Config) (oracle : InspectOracle) (method reqPath : String)
    (berr : Option String) :
    gensOk (Handler.gens (Direct r oracle method reqPath berr)) = true := by
  unfold Direct
  generalize stripVersionL reqPath.data = sp
  generalize checkOwner r oracle "containers" false reqPath = co1
  generalize checkOwner r oracle "images" true reqPath = co2
  generalize checkOwner r oracle "volumes" true reqPath = co3
  by_cases c1 : (method == "GET" && (sp == "/_ping".data || sp == "/version".data || sp == "/info".data)) = true
  · rw [if_pos c1]; rfl
  rw [if_neg c1]
  by_cases c2 : (method == "GET" && sp == "/events".data) = true
  · rw [if_pos c2]; rfl
  rw [if_neg c2]
  by_cases c3 : (method == "POST" && sp == "/containers/create".data) = true
  · rw [if_pos c3]; rfl
  rw [if_neg c3]
  by_cases c4 : (method == "POST" && sp == "/containers/prune".data) = true
  · rw [if_pos c4]; rfl
  rw [if_neg c4]
  by_cases c5 : (method == "GET" && sp == "/containers/json".data) = true
  · rw [if_pos c5]; rfl
  rw [if_neg c5]
  by_cases c6 : matchContainersExec sp = true
  · rw [if_pos c6]; cases co1 <;> rfl
  rw [if_neg c6]
  by_cases c7 : (method == "POST" && sp == "/build".data) = true
  · rw [if_pos c7]; rfl
  rw [if_neg c7]
  by_cases c8 : (method == "GET" && sp == "/images/json".data) = true
  · rw [if_pos c8]; rfl
  rw [if_neg c8]
  by_cases c9 : (method == "POST" && sp == "/images/create".data) = true
  · rw [if_pos c9]; rfl
  rw [if_neg c9]
  by_cases c10 : (method == "POST" && (sp == "/images/create".data || sp == "/images/search".data || sp == "/images/get".data || sp == "/images/load".data)) = true
  · rw [if_pos c10]; rfl
  rw [if_neg c10]
  by_cases c11 : (method == "POST" && sp == "/images/prune".data) = true
  · rw [if_pos c11]; rfl
  rw [if_neg c11]
  by_cases c12 : matchImagesWord sp = true
  · rw [if_pos c12]; cases co2 <;> rfl
  rw [if_neg c12]
  by_cases c13 : (method == "GET" && sp == "/networks".data) = true
  · rw [if_pos c13]; rfl
  rw [if_neg c13]
  by_cases c14 : (method == "POST" && sp == "/networks/create".data) = true
  · rw [if_pos c14]; rfl
  rw [if_neg c14]
  by_cases c15 : (method == "POST" && sp == "/networks/prune".data) = true
  · rw [if_pos c15]; rfl
  rw [if_neg c15]
  by_cases c16 : (method == "DELETE" && matchNetworksAny sp) = true
  · rw [if_pos c16]; rfl
  rw [if_neg c16]
  by_cases c17 : ((method == "GET" && matchNetworksAny sp) || (method == "POST" && matchNetConnDis sp)) = true
  · rw [if_pos c17]; cases berr <;> rfl
  rw [if_neg c17]
  by_cases c18 : (method == "GET" && sp == "/volumes".data) = true
  · rw [if_pos c18]; rfl
  rw [if_neg c18]
  by_cases c19 : (method == "POST" && sp == "/volumes/create".data) = true
  · rw [if_pos c19]; rfl
  rw [if_neg c19]
  by_cases c20 : (method == "POST" && sp == "/volumes/prune".data) = true
  · rw [if_pos c20]; rfl
  rw [if_neg c20]
  by_cases c21 : ((method == "GET" || method == "DELETE") && matchVolumesId sp) = true
  · rw [if_pos c21]; cases co3 <;> rfl
  rw [if_neg c21]
  rfl

/-- The container-create continuation generates only documented codes. -/
theorem hccHC_gens_ok (r : Config) (decoded hc : JObj) :
    gensOk (HResult.gens (handleContainerCreateHC r decoded hc)) = true := by
  unfold handleContainerCreateHC
  repeat' split
  all_goals rfl

/-- The container-create handler generates only documented codes. -/
theorem hcc_gens_ok (r : Config) (body : Except String JObj) :
    gensOk (HResult.gens (handleContainerCreate r body)) = true := by
  cases body with
  | error e => rfl
  | ok d =>
    unfold handleContainerCreate
    repeat' split
    all_goals first
      | rfl
      | exact hccHC_gens_ok _ _ _

/-- The network-create handler generates only documented codes. -/
theorem hnc_gens_ok (r : Config) (body : Except String JObj) (ad : DoResult) :
    gensOk (HResult.gens (handleNetworkCreate r body ad)) = true := by
  unfold handleNetworkCreate
  repeat' split
  all_goals rfl

/-- The network-delete handler generates only documented codes. -/
theorem hnd_gens_ok (r : Config) (oracle : InspectOracle) (reqPath rawQuery : String)
    (dd : DoResult) :
    gensOk (NetDeleteOutcome.gens (handleNetworkDelete r oracle reqPath rawQuery dd)) = true := by
  unfold handleNetworkDelete
  repeat' split
  all_goals rfl

/-- The body-label handler generates only documented codes. -/
theorem albody_gens_ok (r : Config) (body : Except String JObj) :
    gensOk (HResult.gens (addLabelsToBody r body)) = true := by
  cases body <;> rfl

/-- The filters handler generates only documented codes. -/
theorem filters_gens_ok (r : Config) (fin : FiltersParam) :
    gensOk (HResult.gens (addLabelsToQueryStringFilters r fin)) = true := by
  unfold addLabelsToQueryStringFilters
  repeat' split
  all_goals rfl

/-- The build handler generates only documented codes. -/
theorem build_gens_ok (r : Config) (lin : Except String (List (String × String)))
    (cgp : String) :
    gensOk (HResult.gens (handleBuild r lin cgp)) = true := by
  unfold handleBuild
  repeat' split
  all_goals rfl

/-- Claim C3 amended: every response the embedded handlers generate
themselves carries a status code in the documented set 400, 401, 500, 501;
responses written through writeError are application/json message documents,
while the handlers that answer through Go http.Error produce plain text (see
the counterexample). -/
theorem C3_amended_generated_responses :
    (∀ r oracle method reqPath berr,
      gensOk (Handler.gens (Direct r oracle method reqPath berr)) = true) ∧
    (∀ r body, gensOk (HResult.gens (handleContainerCreate r body)) = true) ∧
    (∀ r body ad, gensOk (HResult.gens (handleNetworkCreate r body ad)) = true) ∧
    (∀ r oracle reqPath rawQuery dd,
      gensOk (NetDeleteOutcome.gens (handleNetworkDelete r oracle reqPath rawQuery dd)) = true) ∧
    (∀ r body, gensOk (HResult.gens (addLabelsToBody r body)) = true) ∧
    (∀ r fin, gensOk (HResult.gens (addLabelsToQueryStringFilters r fin)) = true) ∧
    (∀ r lin cgp, gensOk (HResult.gens (handleBuild r lin cgp)) = true) ∧
    (∀ msg code, (Gen.render (.writeErr msg code)).contentType = "application/json" ∧
      (Gen.render (.writeErr msg code)).status = code ∧
      (Gen.render (.writeErr msg code)).body = "\x7b\"message\":" ++ jsonQuote msg ++ "\x7d\n") :=
  ⟨direct_gens_ok, hcc_gens_ok, hnc_gens_ok, hnd_gens_ok, albody_gens_ok,
    filters_gens_ok, build_gens_ok, fun msg code => ⟨rfl, rfl, rfl⟩⟩

/-! Machinery for the filters rewrite claim. -/

/-- Keys of an association list. -/
def keysOf {α : Type} (m : List (String × α)) : List String := m.map Prod.fst

/-- Accepted filter value shapes: nested object or array. -/
def goodVal : Json → Bool
  | .obj _ => true
  | .arr _ => true
  | _ => false

/-- Values a filter entry contributes to its key's array: member names for an
object, the elements for an array. -/
def contribOf : Json → List Json
  | .obj tv => tv.map (fun kv => Json.str kv.1)
  | .arr xs => xs
  | _ => []

/-- Contribution of the decoded filters object to one key. -/
def contrib (m : JObj) (k : String) : List Json :=
  match lookupKV m k with
  | some v => contribOf v
  | none => []

/-- Entries the build loop creates, in iteration order: an object entry needs
at least one member before its key is written, an array entry always writes
its key. -/
def entriesOf : JObj → List (String × List Json)
  | [] => []
  | (k, v) :: rest =>
    match v with
    | .obj [] => entriesOf rest
    | .obj tv => (k, tv.map (fun kv => Json.str kv.1)) :: entriesOf rest
    | .arr xs => (k, xs) :: entriesOf rest
    | _ => entriesOf rest

/-- Lookup distributes over append. -/
theorem lookupKV_append {α : Type} (l1 l2 : List (String × α)) (k : String) :
    lookupKV (l1 ++ l2) k
      = (match lookupKV l1 k with
         | some v => some v
         | none => lookupKV l2 k) := by
  induction l1 with
  | nil => simp [lookupKV]
  | cons p t ih =>
    obtain ⟨k', v'⟩ := p
    by_cases h : k' = k
    · simp [lookupKV, h]
    · simp [lookupKV, h, ih]

/-- Failed lookup means the key is absent. -/
theorem lookupKV_none_not_mem {α : Type} (l : List (String × α)) (k : String)
    (h : lookupKV l k = none) : k ∉ keysOf l := by
  induction l with
  | nil => simp [keysOf]
  | cons p t ih =>
    obtain ⟨k', v'⟩ := p
    by_cases hk : k' = k
    · rw [lookupKV, if_pos hk] at h
      exact absurd h (by simp)
    · rw [lookupKV, if_neg hk] at h
      intro hm
      simp only [keysOf, List.map_cons, List.mem_cons] at hm
      rcases hm with h1 | h1
      · exact hk h1.symm
      · exact ih h h1

/-- An absent key makes lookup fail. -/
theorem lookupKV_not_mem_none {α : Type} (l : List (String × α)) (k : String)
    (h : k ∉ keysOf l) : lookupKV l k = none := by
  induction l with
  | nil => rfl
  | cons p t ih =>
    obtain ⟨k', v'⟩ := p
    simp only [keysOf, List.map_cons, List.mem_cons, not_or] at h
    rw [lookupKV, if_neg (fun he => h.1 he.symm)]
    exact ih h.2

/-- Writing a fresh key appends it at the end. -/
theorem setKV_fresh {α : Type} (l : List (String × α)) (k : String) (v : α)
    (h : lookupKV l k = none) : setKV l k v = l ++ [(k, v)] := by
  induction l with
  | nil => rfl
  | cons p t ih =>
    obtain ⟨k', v'⟩ := p
    by_cases hk : k' = k
    · simp [lookupKV, hk] at h
    · simp only [lookupKV, if_neg hk] at h
      simp [setKV, hk, ih h]

/-- Overwriting an existing key leaves the key list unchanged. -/
theorem keysOf_setKV_mem {α : Type} (l : List (String × α)) (k : String) (v : α)
    (h : lookupKV l k ≠ none) : keysOf (setKV l k v) = keysOf l := by
  induction l with
  | nil => simp [lookupKV] at h
  | cons p t ih =>
    obtain ⟨k', v'⟩ := p
    by_cases hk : k' = k
    · simp [setKV, keysOf, hk]
    · simp only [lookupKV, if_neg hk] at h
      simp [setKV, keysOf, hk]
      simpa [keysOf] using ih h

/-- Writing a key preserves distinctness of the key list. -/
theorem nodup_keys_setKV {α : Type} (l : List (String × α)) (k : String) (v : α)
    (h : (keysOf l).Nodup) : (keysOf (setKV l k v)).Nodup := by
  cases hl : lookupKV l k with
  | none =>
    rw [setKV_fresh l k v hl]
    have : keysOf (l ++ [(k, v)]) = keysOf l ++ [k] := by simp [keysOf]
    rw [this]
    simp [List.nodup_append, h]
    exact fun hm => (lookupKV_none_not_mem l k hl) hm
  | some w =>
    rw [keysOf_setKV_mem l k v (by simp [hl])]
    exact h

/-- Insertion into a sorted list permutes a cons. -/
theorem insertSorted_perm (p : String × List Json) (l : List (String × List Json)) :
    List.Perm (insertSorted p l) (p :: l) := by
  induction l with
  | nil => simp [insertSorted]
  | cons q t ih =>
    unfold insertSorted
    by_cases h : strLeB p.1 q.1 = true
    · rw [if_pos h]
    · rw [if_neg h]
      exact List.Perm.trans (List.Perm.cons q ih) (List.Perm.swap p q t)

/-- The marshal sort is a permutation. -/
theorem sortByKey_perm (l : List (String × List Json)) : List.Perm (sortByKey l) l := by
  induction l with
  | nil => simp [sortByKey]
  | cons p t ih =>
    unfold sortByKey
    simp only [List.foldr_cons]
    refine List.Perm.trans (insertSorted_perm p (List.foldr insertSorted [] t)) ?_
    exact List.Perm.cons p ih

/-- A successful lookup exhibits a member. -/
theorem lookupKV_some_mem {α : Type} (l : List (String × α)) (k : String) (v : α)
    (h : lookupKV l k = some v) : (k, v) ∈ l := by
  induction l with
  | nil => simp [lookupKV] at h
  | cons p t ih =>
    obtain ⟨k', v'⟩ := p
    by_cases hk : k' = k
    · rw [lookupKV, if_pos hk] at h
      have hv := Option.some.inj h
      subst hv
      subst hk
      exact List.mem_cons_self _ _
    · rw [lookupKV, if_neg hk] at h
      exact List.mem_cons_of_mem _ (ih h)

/-- Under distinct keys a member is found by lookup. -/
theorem lookupKV_mem_some {α : Type} (l : List (String × α)) (k : String) (v : α)
    (hnd : (keysOf l).Nodup) (h : (k, v) ∈ l) : lookupKV l k = some v := by
  induction l with
  | nil => simp at h
  | cons p t ih =>
    obtain ⟨k', v'⟩ := p
    simp only [keysOf, List.map_cons, List.nodup_cons] at hnd
    rcases List.mem_cons.mp h with h1 | h1
    · have hk : k = k' := congrArg Prod.fst h1
      have hv : v = v' := congrArg Prod.snd h1
      rw [lookupKV, if_pos hk.symm, hv]
    · by_cases hk : k' = k
      · subst hk
        exact absurd (List.mem_map_of_mem Prod.fst h1) hnd.1
      · rw [lookupKV, if_neg hk]
        exact ih hnd.2 h1

/-- Permutations preserve lookup when keys are distinct. -/
theorem lookupKV_perm {α : Type} (l l2 : List (String × α)) (k : String)
    (hp : List.Perm l l2) (hnd : (keysOf l).Nodup) :
    lookupKV l k = lookupKV l2 k := by
  have hnd2 : (keysOf l2).Nodup := (hp.map Prod.fst).nodup_iff.mp hnd
  cases h1 : lookupKV l k with
  | none =>
    have := lookupKV_none_not_mem l k h1
    have h2 : k ∉ keysOf l2 := fun hm => this ((hp.map Prod.fst).mem_iff.mpr hm)
    exact (lookupKV_not_mem_none l2 k h2).symm
  | some v =>
    exact (lookupKV_mem_some l2 k v hnd2 (hp.mem_iff.mp (lookupKV_some_mem l k v h1))).symm

/-- Writing over the appended fresh key. -/
theorem setKV_append_last {α : Type} (l : List (String × α)) (k : String) (v w : α)
    (hk : lookupKV l k = none) : setKV (l ++ [(k, v)]) k w = l ++ [(k, w)] := by
  induction l with
  | nil => simp [setKV]
  | cons p t ih =>
    obtain ⟨k', v'⟩ := p
    by_cases h : k' = k
    · rw [lookupKV, if_pos h] at hk
      exact absurd hk (by simp)
    · rw [lookupKV, if_neg h] at hk
      simp only [List.cons_append, setKV, if_neg h]
      exact congrArg _ (ih hk)

/-- Appending values under a fresh key creates the entry at the end. -/
theorem filtersAppend_fresh (acc : List (String × List Json)) (k : String) (xs : List Json)
    (hk : lookupKV acc k = none) : filtersAppend acc k xs = acc ++ [(k, xs)] := by
  unfold filtersAppend
  rw [hk]
  simpa using setKV_fresh acc k xs hk

/-- Appending more values to the entry created at the end. -/
theorem filtersAppend_last (acc : List (String × List Json)) (k : String)
    (vs xs : List Json) (hk : lookupKV acc k = none) :
    filtersAppend (acc ++ [(k, vs)]) k xs = acc ++ [(k, vs ++ xs)] := by
  unfold filtersAppend
  have h1 : lookupKV (acc ++ [(k, vs)]) k = some vs := by
    rw [lookupKV_append, hk]
    simp [lookupKV]
  rw [h1]
  simpa using setKV_append_last acc k vs (vs ++ xs) hk

/-- The object branch of the build loop appends the member names one by one
into the entry at the end. -/
theorem objFold_append (k : String) (tv : List (String × Json)) :
    ∀ (acc : List (String × List Json)) (vs : List Json), lookupKV acc k = none →
    tv.foldl (fun a kv => filtersAppend a k [Json.str kv.1]) (acc ++ [(k, vs)])
      = acc ++ [(k, vs ++ tv.map (fun kv => Json.str kv.1))] := by
  induction tv with
  | nil => intro acc vs hk; simp
  | cons kv tv' ih =>
    intro acc vs hk
    simp only [List.foldl_cons]
    rw [filtersAppend_last acc k vs [Json.str kv.1] hk, ih acc (vs ++ [Json.str kv.1]) hk]
    simp

/-- The object branch of the build loop over a nonempty member list creates
the key with all member names. -/
theorem objFold_start (k : String) (tv : List (String × Json))
    (acc : List (String × List Json)) (hk : lookupKV acc k = none) (hne : tv ≠ []) :
    tv.foldl (fun a kv => filtersAppend a k [Json.str kv.1]) acc
      = acc ++ [(k, tv.map (fun kv => Json.str kv.1))] := by
  cases tv with
  | nil => exact absurd rfl hne
  | cons kv0 tv' =>
    simp only [List.foldl_cons]
    rw [filtersAppend_fresh acc k [Json.str kv0.1] hk, objFold_append k tv' acc [Json.str kv0.1] hk]
    simp

/-- Keys of the created entries come from the decoded object. -/
theorem entriesOf_keys_subset (m : JObj) (k : String)
    (h : k ∈ keysOf (entriesOf m)) : k ∈ keysOf m := by
  induction m with
  | nil => simp [entriesOf, keysOf] at h
  | cons p rest ih =>
    obtain ⟨k', v⟩ := p
    cases v with
    | obj tv =>
      cases tv with
      | nil => exact List.mem_cons_of_mem _ (ih (by simpa [entriesOf] using h))
      | cons kv0 tv' =>
        simp only [entriesOf, keysOf, List.map_cons, List.mem_cons] at h ⊢
        rcases h with h1 | h1
        · exact Or.inl h1
        · exact Or.inr (ih h1)
    | arr xs =>
      simp only [entriesOf, keysOf, List.map_cons, List.mem_cons] at h ⊢
      rcases h with h1 | h1
      · exact Or.inl h1
      · exact Or.inr (ih h1)
    | null => exact List.mem_cons_of_mem _ (ih (by simpa [entriesOf] using h))
    | bool b => exact List.mem_cons_of_mem _ (ih (by simpa [entriesOf] using h))
    | num n => exact List.mem_cons_of_mem _ (ih (by simpa [entriesOf] using h))
    | str s => exact List.mem_cons_of_mem _ (ih (by simpa [entriesOf] using h))

/-- Distinct decoded keys give distinct created keys. -/
theorem nodup_entriesOf (m : JObj) (hnd : (keysOf m).Nodup) :
    (keysOf (entriesOf m)).Nodup := by
  induction m with
  | nil => simp [entriesOf, keysOf]
  | cons p rest ih =>
    obtain ⟨k', v⟩ := p
    have hnd2 := List.nodup_cons.mp hnd
    have hnotin : k' ∉ keysOf (entriesOf rest) := fun hm => hnd2.1 (entriesOf_keys_subset rest k' hm)
    cases v with
    | obj tv =>
      cases tv with
      | nil => exact ih hnd2.2
      | cons kv0 tv' =>
        simp only [entriesOf, keysOf, List.map_cons, List.nodup_cons]
        exact ⟨hnotin, ih hnd2.2⟩
    | arr xs =>
      simp only [entriesOf, keysOf, List.map_cons, List.nodup_cons]
      exact ⟨hnotin, ih hnd2.2⟩
    | null => exact ih hnd2.2
    | bool b => exact ih hnd2.2
    | num n => exact ih hnd2.2
    | str s => exact ih hnd2.2

/-- The build loop writes exactly the created entries behind the accumulator
when the decoded keys are distinct, well shaped, and fresh for the
accumulator. -/
theorem buildFilters_ok (m : JObj) :
    ∀ acc, (∀ kv ∈ m, goodVal kv.2 = true) → (keysOf m).Nodup →
    (∀ k ∈ keysOf m, lookupKV acc k = none) →
    buildFilters m acc = .ok (acc ++ entriesOf m) := by
  induction m with
  | nil => intro acc _ _ _; simp [buildFilters, entriesOf]
  | cons p rest ih =>
    obtain ⟨k, v⟩ := p
    intro acc hgood hnd hdisj
    have hk : lookupKV acc k = none := hdisj k (List.mem_cons_self _ _)
    have hnd2 := List.nodup_cons.mp hnd
    have hgoodr : ∀ kv ∈ rest, goodVal kv.2 = true :=
      fun kv hkv => hgood kv (List.mem_cons_of_mem _ hkv)
    have hdisjr : ∀ app : List (String × List Json),
        (∀ k2 ∈ keysOf rest, lookupKV app k2 = none) →
        True := fun _ _ => trivial
    cases v with
    | obj tv =>
      cases tv with
      | nil =>
        simp only [buildFilters, List.foldl_nil]
        rw [ih acc hgoodr hnd2.2 (fun k2 h2 => hdisj k2 (List.mem_cons_of_mem _ h2))]
        simp [entriesOf]
      | cons kv0 tv' =>
        simp only [buildFilters]
        rw [objFold_start k (kv0 :: tv') acc hk (by simp)]
        rw [ih (acc ++ [(k, (kv0 :: tv').map (fun kv => Json.str kv.1))]) hgoodr hnd2.2 ?_]
        · simp [entriesOf]
        · intro k2 h2
          have hne : k ≠ k2 := fun he => hnd2.1 (he ▸ h2)
          rw [lookupKV_append, hdisj k2 (List.mem_cons_of_mem _ h2)]
          simp [lookupKV, hne]
    | arr xs =>
      simp only [buildFilters]
      rw [filtersAppend_fresh acc k xs hk]
      rw [ih (acc ++ [(k, xs)]) hgoodr hnd2.2 ?_]
      · simp [entriesOf]
      · intro k2 h2
        have hne : k ≠ k2 := fun he => hnd2.1 (he ▸ h2)
        rw [lookupKV_append, hdisj k2 (List.mem_cons_of_mem _ h2)]
        simp [lookupKV, hne]
    | null => exact absurd (hgood (k, .null) (List.mem_cons_self _ _)) (by simp [goodVal])
    | bool b => exact absurd (hgood (k, .bool b) (List.mem_cons_self _ _)) (by simp [goodVal])
    | num n => exact absurd (hgood (k, .num n) (List.mem_cons_self _ _)) (by simp [goodVal])
    | str s => exact absurd (hgood (k, .str s) (List.mem_cons_self _ _)) (by simp [goodVal])

/-- A value of any other JSON type anywhere in the decoded object aborts the
build loop with an error. -/
theorem buildFilters_err (m : JObj) :
    ∀ acc, (∃ kv ∈ m, goodVal kv.2 = false) →
    ∃ e, buildFilters m acc = .error e := by
  induction m with
  | nil => intro acc h; simp at h
  | cons p rest ih =>
    obtain ⟨k, v⟩ := p
    intro acc h
    cases v with
    | obj tv =>
      have h2 : ∃ kv ∈ rest, goodVal kv.2 = false := by
        obtain ⟨kv, hkv, hbad⟩ := h
        rcases List.mem_cons.mp hkv with h1 | h1
        · rw [h1] at hbad; simp [goodVal] at hbad
        · exact ⟨kv, h1, hbad⟩
      simpa [buildFilters] using ih _ h2
    | arr xs =>
      have h2 : ∃ kv ∈ rest, goodVal kv.2 = false := by
        obtain ⟨kv, hkv, hbad⟩ := h
        rcases List.mem_cons.mp hkv with h1 | h1
        · rw [h1] at hbad; simp [goodVal] at hbad
        · exact ⟨kv, h1, hbad⟩
      simpa [buildFilters] using ih _ h2
    | null => exact ⟨_, rfl⟩
    | bool b => exact ⟨_, rfl⟩
    | num n => exact ⟨_, rfl⟩
    | str s => exact ⟨_, rfl⟩

/-- The two accepted shapes of a singleton-valued filters document build the
same map. -/
theorem buildFilters_shapes (ks : List (String × String)) :
    ∀ acc, buildFilters (ks.map (fun kv => (kv.1, Json.obj [(kv.2, Json.bool true)]))) acc
      = buildFilters (ks.map (fun kv => (kv.1, Json.arr [Json.str kv.2]))) acc := by
  induction ks with
  | nil => intro acc; rfl
  | cons kv ks' ih =>
    intro acc
    simp only [List.map_cons, buildFilters, List.foldl_cons, List.foldl_nil]
    exact ih _

/-- Reading a key out of the created entries, characterised by the decoded
object. -/
theorem lookupKV_entriesOf (m : JObj) (hnd : (keysOf m).Nodup) (k : String) :
    lookupKV (entriesOf m) k
      = (match lookupKV m k with
         | some (.obj tv) =>
           if tv.isEmpty then none else some (tv.map (fun kv => Json.str kv.1))
         | some (.arr xs) => some xs
         | _ => none) := by
  induction m with
  | nil => simp [entriesOf, lookupKV]
  | cons p rest ih =>
    obtain ⟨k', v⟩ := p
    have hnd2 := List.nodup_cons.mp hnd
    by_cases hk : k' = k
    · subst hk
      rw [lookupKV, if_pos rfl]
      have hnone : lookupKV (entriesOf rest) k' = none := by
        apply lookupKV_not_mem_none
        exact fun hm => hnd2.1 (entriesOf_keys_subset rest k' hm)
      cases v with
      | obj tv =>
        cases tv with
        | nil => simpa [entriesOf, List.isEmpty] using hnone
        | cons kv0 tv' => simp [entriesOf, lookupKV, List.isEmpty]
      | arr xs => simp [entriesOf, lookupKV]
      | null => simpa [entriesOf] using hnone
      | bool b => simpa [entriesOf] using hnone
      | num n => simpa [entriesOf] using hnone
      | str s => simpa [entriesOf] using hnone
    · rw [lookupKV, if_neg hk]
      cases v with
      | obj tv =>
        cases tv with
        | nil => simpa [entriesOf] using ih hnd2.2
        | cons kv0 tv' =>
          simp only [entriesOf, lookupKV, if_neg hk]
          exact ih hnd2.2
      | arr xs =>
        simp only [entriesOf, lookupKV, if_neg hk]
        exact ih hnd2.2
      | null => simpa [entriesOf] using ih hnd2.2
      | bool b => simpa [entriesOf] using ih hnd2.2
      | num n => simpa [entriesOf] using ih hnd2.2
      | str s => simpa [entriesOf] using ih hnd2.2

/-- Final step of the filters rewrite: creating the label slice when absent
and appending the owner label writes exactly one value behind the existing
label values and leaves every other key alone. -/
theorem filtersFinal (E : List (String × List Json)) (hndE : (keysOf E).Nodup) (O : Json) :
    (keysOf (filtersAppend (ensureLabelKey E) "label" [O])).Nodup ∧
    lookupKV (filtersAppend (ensureLabelKey E) "label" [O]) "label"
      = some ((match lookupKV E "label" with | some vs => vs | none => []) ++ [O]) ∧
    ∀ k, k ≠ "label" →
      lookupKV (filtersAppend (ensureLabelKey E) "label" [O]) k = lookupKV E k := by
  cases hl : lookupKV E "label" with
  | some vs =>
    have hens : ensureLabelKey E = E := by
      unfold ensureLabelKey
      rw [hl]
      simp
    have happ : filtersAppend (ensureLabelKey E) "label" [O] = setKV E "label" (vs ++ [O]) := by
      rw [hens]
      unfold filtersAppend
      rw [hl]
      rfl
    rw [happ]
    refine ⟨nodup_keys_setKV E "label" (vs ++ [O]) hndE, ?_, ?_⟩
    · rw [lookupKV_setKV_eq]
    · intro k hk
      exact lookupKV_setKV_ne E "label" k (vs ++ [O]) (fun he => hk he.symm)
  | none =>
    have hens : ensureLabelKey E = E ++ [("label", [])] := by
      unfold ensureLabelKey
      rw [hl]
      simp
    have happ : filtersAppend (ensureLabelKey E) "label" [O] = E ++ [("label", [O])] := by
      rw [hens]
      have := filtersAppend_last E "label" [] [O] hl
      simpa using this
    rw [happ]
    refine ⟨?_, ?_, ?_⟩
    · have hkeys : keysOf (E ++ [("label", [O])]) = keysOf E ++ ["label"] := by simp [keysOf]
      rw [hkeys]
      simp [List.nodup_append, hndE]
      exact fun hm => (lookupKV_none_not_mem E "label" hl) hm
    · rw [lookupKV_append, hl]
      simp [lookupKV]
    · intro k hk
      rw [lookupKV_append]
      cases h2 : lookupKV E k with
      | some v => rfl
      | none => simp [lookupKV, Ne.symm hk]

/-- Projection of a filters rewrite outcome onto the string values of its
label array, used to exhibit differing outputs. -/
def labelStrings : HResult (List (String × List Json)) → List String
  | .fwd out =>
    match lookupKV out "label" with
    | some vs => vs.map (fun j => match j with | .str s => s | _ => "")
    | none => []
  | _ => []

/-- Claim C7 counterexample: the filters documents whose label value is the
object with the two members b=2 and a=1 (both true) and whose label value is
the array of a=1 then b=2 denote the same filter set (a JSON object's
members are unordered, and Go additionally iterates the decoded map in
unspecified order), yet the rewrite emits the member order on one side and
the element order on the other, so the rewritten filters values differ. -/
theorem C7_counterexample_order_dependent :
    labelStrings (addLabelsToQueryStringFilters { Owner := "o" }
      (.decoded [("label", .obj [("b=2", .bool true), ("a=1", .bool true)])]))
      = ["b=2", "a=1", "com.buildkite.sockguard.owner=o"] ∧
    labelStrings (addLabelsToQueryStringFilters { Owner := "o" }
      (.decoded [("label", .arr [.str "a=1", .str "b=2"])]))
      = ["a=1", "b=2", "com.buildkite.sockguard.owner=o"] ∧
    addLabelsToQueryStringFilters { Owner := "o" }
        (.decoded [("label", .obj [("b=2", .bool true), ("a=1", .bool true)])])
      ≠ addLabelsToQueryStringFilters { Owner := "o" }
        (.decoded [("label", .arr [.str "a=1", .str "b=2"])]) := by
  refine ⟨rfl, rfl, fun h => ?_⟩
  exact absurd (congrArg labelStrings h) (by decide)

/-- Claim C7 amended: both accepted filter encodings build the same rewritten
value whenever every object value has at most one member (the spec's shape-
tolerance example); in general the label array consists of exactly the
client-contributed values in the encoding's member or element order followed
by the owner label appended exactly once, all other keys carrying exactly
the client values; and a filters object holding a value of any other JSON
type yields a 400 response without forwarding. -/
theorem C7_amended_filter_shapes (r : Config) (m : JObj) (ks : List (String × String))
    (hnd : (keysOf m).Nodup) (hgood : ∀ kv ∈ m, goodVal kv.2 = true) :
    (addLabelsToQueryStringFilters r
        (.decoded (ks.map (fun kv => (kv.1, Json.obj [(kv.2, Json.bool true)]))))
      = addLabelsToQueryStringFilters r
        (.decoded (ks.map (fun kv => (kv.1, Json.arr [Json.str kv.2]))))) ∧
    (∃ out, addLabelsToQueryStringFilters r (.decoded m) = .fwd out ∧
      lookupKV out "label"
        = some (contrib m "label" ++ [Json.str (ownerKey ++ "=" ++ r.Owner)]) ∧
      ∀ k, k ≠ "label" → lookupKV out k = lookupKV (entriesOf m) k) ∧
    (∀ m2 : JObj, (∃ kv ∈ m2, goodVal kv.2 = false) →
      ∃ e, addLabelsToQueryStringFilters r (.decoded m2) = .reject (.httpErr e 400)) := by
  refine ⟨?_, ?_, ?_⟩
  · simp only [addLabelsToQueryStringFilters, filtersStart]
    rw [buildFilters_shapes ks []]
  · have hbuild := buildFilters_ok m [] hgood hnd (fun k _ => rfl)
    have hndE := nodup_entriesOf m hnd
    obtain ⟨hndL, hlab, hothers⟩ :=
      filtersFinal (entriesOf m) hndE (Json.str (ownerKey ++ "=" ++ r.Owner))
    have hperm := sortByKey_perm
      (filtersAppend (ensureLabelKey (entriesOf m)) "label"
        [Json.str (ownerKey ++ "=" ++ r.Owner)])
    have hsortnd : (keysOf (sortByKey (filtersAppend (ensureLabelKey (entriesOf m)) "label"
        [Json.str (ownerKey ++ "=" ++ r.Owner)]))).Nodup :=
      (List.Perm.nodup_iff (hperm.map Prod.fst)).mpr hndL
    have hlooksort : ∀ k, lookupKV (sortByKey (filtersAppend (ensureLabelKey (entriesOf m))
        "label" [Json.str (ownerKey ++ "=" ++ r.Owner)])) k
        = lookupKV (filtersAppend (ensureLabelKey (entriesOf m)) "label"
          [Json.str (ownerKey ++ "=" ++ r.Owner)]) k :=
      fun k => lookupKV_perm _ _ k hperm hsortnd
    refine ⟨sortByKey (filtersAppend (ensureLabelKey (entriesOf m)) "label"
      [Json.str (ownerKey ++ "=" ++ r.Owner)]), ?_, ?_, ?_⟩
    · simp only [addLabelsToQueryStringFilters, filtersStart]
      rw [hbuild]
      simp
    · rw [hlooksort, hlab]
      have hcontrib : (match lookupKV (entriesOf m) "label" with
          | some vs => vs
          | none => ([] : List Json)) = contrib m "label" := by
        rw [lookupKV_entriesOf m hnd "label"]
        unfold contrib
        cases hm2 : lookupKV m "label" with
        | none => rfl
        | some v =>
          have hg := hgood ("label", v) (lookupKV_some_mem m "label" v hm2)
          cases v with
          | obj tv => cases tv with
            | nil => simp [contribOf, List.isEmpty]
            | cons kv0 tv' => simp [contribOf, List.isEmpty]
          | arr xs => simp [contribOf]
          | null => simp [goodVal] at hg
          | bool b => simp [goodVal] at hg
          | num n => simp [goodVal] at hg
          | str s => simp [goodVal] at hg
      rw [hcontrib]
    · intro k hk
      rw [hlooksort, hothers k hk]
  · intro m2 hbad
    obtain ⟨e, he⟩ := buildFilters_err m2 [] hbad
    refine ⟨e, ?_⟩
    simp only [addLabelsToQueryStringFilters, filtersStart]
    rw [he]

/-- Witness for the amended C7 at a one-member filter. -/
theorem C7_amended_filter_shapes_witness :
    ((keysOf ([("label", Json.obj [("a=1", Json.bool true)])] : JObj)).Nodup) ∧
    (∀ kv ∈ ([("label", Json.obj [("a=1", Json.bool true)])] : JObj), goodVal kv.2 = true) ∧
    (addLabelsToQueryStringFilters { Owner := "test-owner" }
        (.decoded ([(("label" : String), ("a=1" : String))].map
          (fun kv => (kv.1, Json.obj [(kv.2, Json.bool true)]))))
      = addLabelsToQueryStringFilters { Owner := "test-owner" }
        (.decoded ([(("label" : String), ("a=1" : String))].map
          (fun kv => (kv.1, Json.arr [Json.str kv.2]))))) ∧
    (∃ out, addLabelsToQueryStringFilters { Owner := "test-owner" }
        (.decoded [("label", Json.obj [("a=1", Json.bool true)])]) = .fwd out ∧
      lookupKV out "label"
        = some (contrib [("label", Json.obj [("a=1", Json.bool true)])] "label"
            ++ [Json.str (ownerKey ++ "=" ++ "test-owner")]) ∧
      ∀ k, k ≠ "label" → lookupKV out k
        = lookupKV (entriesOf [("label", Json.obj [("a=1", Json.bool true)])]) k) := by
  have hnd : (keysOf ([("label", Json.obj [("a=1", Json.bool true)])] : JObj)).Nodup := by
    simp [keysOf]
  have hgood : ∀ kv ∈ ([("label", Json.obj [("a=1", Json.bool true)])] : JObj),
      goodVal kv.2 = true := by
    intro kv hkv
    simp only [List.mem_singleton] at hkv
    rw [hkv]
    rfl
  have hmain := C7_amended_filter_shapes { Owner := "test-owner" }
    [("label", Json.obj [("a=1", Json.bool true)])]
    [(("label" : String), ("a=1" : String))] hnd hgood
  exact ⟨hnd, hgood, hmain.1, hmain.2.1⟩

end Sockguard




